import Mathlib

/-!
# ServiceFinder: validators, client-side query logic and pagination

A shallow embedding of the pure logic of the ServiceFinder application
(`src/utils/validators.js`, `src/utils/useServices.js`, `src/App.jsx`,
`src/firebase/firebaseServices.js`, `src/components/services/ServiceList.jsx`,
`src/components/services/AddServiceModal.jsx`,
`src/components/Auth/SignUpForm.jsx`) together with theorems about it.

Conventions of the embedding:

* an ECMAScript string is the list of its UTF-16 code units (`JsString`), so
  `.length` is `List.length`;
* a form field or argument that may be missing (`undefined`) is an `Option`;
* `String.prototype.toLowerCase` and `String.prototype.localeCompare` are host
  builtins: every definition that calls them takes them as an argument, and
  the theorems hold for every such function;
* a regular expression literal `/^r$/` is a `Regex` value and `.test` is
  decided by Brzozowski derivatives; `Regex.lang` is its denotation;
* finite ECMAScript numbers are rationals;
* a hook is the record of what it keeps between renders, and an effect with a
  dependency array runs when a dependency differs from its previous value;
  time is counted in the units of `setTimeout`;
* a remote call is represented by the value handed to it and by how it ends.
-/

namespace ServiceFinder

/-! ## Strings -/

/-- An ECMAScript string value: the sequence of its UTF-16 code units. -/
abbrev JsString := List Nat

/-- The UTF-16 encoding of one Unicode scalar value. -/
def utf16 (c : Char) : List Nat :=
  if c.toNat < 65536 then [c.toNat]
  else [55296 + (c.toNat - 65536) / 1024, 56320 + (c.toNat - 65536) % 1024]

/-- The ECMAScript string written as the literal `s`. -/
def js (s : String) : JsString := s.toList.flatMap utf16

/-- Code unit of `@`. -/
def atSign : Nat := 64

/-- Code unit of `.`. -/
def fullStop : Nat := 46

/-- The class `\d`: the decimal digits `0`..`9`. -/
def isDigit (c : Nat) : Bool := decide (48 ≤ c) && decide (c ≤ 57)

/-- The class `\D`: every code unit that is not a decimal digit. -/
def isNonDigit (c : Nat) : Bool := !isDigit c

/-- ECMAScript `WhiteSpace` and `LineTerminator` code units: the class `\s`,
which is also the set that `String.prototype.trim` strips. -/
def isWhiteSpace (c : Nat) : Bool :=
  c == 9 || c == 10 || c == 11 || c == 12 || c == 13 || c == 32 || c == 160 ||
  c == 5760 || (decide (8192 ≤ c) && decide (c ≤ 8202)) || c == 8232 || c == 8233 ||
  c == 8239 || c == 8287 || c == 12288 || c == 65279

/-- The method `String.prototype.trim`. -/
def trim (s : JsString) : JsString :=
  (s.dropWhile isWhiteSpace).rdropWhile isWhiteSpace

/-- The call `s.replace(/C/g, '')` for a one-character class `C`: every code
unit in the class is deleted. -/
def removeAll (cls : Nat → Bool) (s : JsString) : JsString :=
  s.filter (fun c => !cls c)

/-- The method `String.prototype.includes`: `t` occurs in `s` at some position. -/
def includes (s t : JsString) : Bool :=
  s.tails.any (fun u => t.isPrefixOf u)

/-! ## Regular expressions -/

/-- Abstract syntax of the regular expressions used by the validators. A
character class is given by its membership test on code units. -/
inductive Regex where
  | never : Regex
  | empty : Regex
  | cls (p : Nat → Bool) : Regex
  | seq (a b : Regex) : Regex
  | alt (a b : Regex) : Regex
  | star (a : Regex) : Regex

namespace Regex

/-- The quantifier `r+`. -/
def plus (r : Regex) : Regex := seq r (star r)

/-- Whether the expression matches the empty string. -/
def nullable : Regex → Bool
  | never => false
  | empty => true
  | cls _ => false
  | seq a b => a.nullable && b.nullable
  | alt a b => a.nullable || b.nullable
  | star _ => true

/-- Brzozowski derivative with respect to one code unit. -/
def deriv : Regex → Nat → Regex
  | never, _ => never
  | empty, _ => never
  | cls p, c => if p c then empty else never
  | seq a b, c =>
    if a.nullable then alt (seq (a.deriv c) b) (b.deriv c) else seq (a.deriv c) b
  | alt a b, c => alt (a.deriv c) (b.deriv c)
  | star a, c => seq (a.deriv c) (star a)

/-- The call `/^r$/.test(s)`: the whole of `s` matches `r`. -/
def test (r : Regex) : JsString → Bool
  | [] => r.nullable
  | c :: s => (r.deriv c).test s

/-- The set of strings an expression denotes. -/
def lang : Regex → Language Nat
  | never => 0
  | empty => 1
  | cls p => {w | ∃ c, p c = true ∧ w = [c]}
  | seq a b => a.lang * b.lang
  | alt a b => a.lang + b.lang
  | star a => KStar.kstar a.lang

end Regex

/-! ## Validators (`src/utils/validators.js`) -/

/-- The class `[^\s@]`. -/
def notSpaceNorAt (c : Nat) : Bool := !(isWhiteSpace c || c == atSign)

/-- The literal `/^[^\s@]+@[^\s@]+\.[^\s@]+$/`. -/
def emailRegex : Regex :=
  .seq (.plus (.cls notSpaceNorAt))
    (.seq (.cls (fun c => c == atSign))
      (.seq (.plus (.cls notSpaceNorAt))
        (.seq (.cls (fun c => c == fullStop)) (.plus (.cls notSpaceNorAt)))))

/-- Function `validateEmail`. -/
def validateEmail (email : Option JsString) : Bool :=
  match email with
  | none => false
  | some e =>
    if e.isEmpty then false
    else emailRegex.test (trim e)

/-- Function `validatePhone`. -/
def validatePhone (phone : Option JsString) : Bool :=
  match phone with
  | none => false
  | some p =>
    if p.isEmpty then false
    else
      let digitsOnly := removeAll isNonDigit p
      decide (digitsOnly.length ≥ 10) && decide (digitsOnly.length ≤ 15)

/-- The record `{ isValid, message }` returned by the record-valued validators. -/
structure ValidationResult where
  isValid : Bool
  message : String
  deriving DecidableEq, Repr

/-- Function `validateServiceName`. -/
def validateServiceName (name : Option JsString) : ValidationResult :=
  match name with
  | none => { isValid := false, message := "Service name is required" }
  | some n =>
    if n.isEmpty then { isValid := false, message := "Service name is required" }
    else
      let trimmedName := trim n
      if trimmedName.length < 3 then
        { isValid := false, message := "Service name must be at least 3 characters" }
      else if trimmedName.length > 100 then
        { isValid := false, message := "Service name is too long (max 100 characters)" }
      else { isValid := true, message := "Service name is valid" }

/-- Function `validateDescription`. -/
def validateDescription (description : Option JsString) : ValidationResult :=
  match description with
  | none => { isValid := false, message := "Description is required" }
  | some d =>
    if d.isEmpty then { isValid := false, message := "Description is required" }
    else
      let trimmedDesc := trim d
      if trimmedDesc.length < 10 then
        { isValid := false, message := "Description must be at least 10 characters" }
      else if trimmedDesc.length > 1000 then
        { isValid := false, message := "Description is too long (max 1000 characters)" }
      else { isValid := true, message := "Description is valid" }

/-- The array `validCategories` of `validateCategory`. -/
def validCategories : List JsString :=
  [js "plumbing", js "electrical", js "carpentry", js "painting", js "cleaning",
   js "gardening", js "landscaping", js "roofing", js "hvac", js "handyman"]

/-- Function `validateCategory`; `toLowerCase` is the host's
`String.prototype.toLowerCase`. -/
def validateCategory (toLowerCase : JsString → JsString) (category : Option JsString) : Bool :=
  match category with
  | none => false
  | some c =>
    if c.isEmpty then false
    else validCategories.contains (toLowerCase c)

/-- The class `[a-zA-Z\s\-']`. -/
def cityChar (c : Nat) : Bool :=
  (decide (97 ≤ c) && decide (c ≤ 122)) || (decide (65 ≤ c) && decide (c ≤ 90)) ||
  isWhiteSpace c || c == 45 || c == 39

/-- The literal `/^[a-zA-Z\s\-']+$/`. -/
def cityRegex : Regex := .plus (.cls cityChar)

/-- Function `validateCity`. -/
def validateCity (city : Option JsString) : ValidationResult :=
  match city with
  | none => { isValid := false, message := "City is required" }
  | some c =>
    if c.isEmpty then { isValid := false, message := "City is required" }
    else
      let trimmedCity := trim c
      if trimmedCity.length < 2 then
        { isValid := false, message := "City name must be at least 2 characters" }
      else if trimmedCity.length > 50 then
        { isValid := false, message := "City name is too long" }
      else if !cityRegex.test trimmedCity then
        { isValid := false, message := "City name contains invalid characters" }
      else { isValid := true, message := "City name is valid" }

/-- The fields of `formData` that `validateServiceForm` reads; `none` is a
field that is absent from the object. -/
structure ServiceForm where
  name : Option JsString
  category : Option JsString
  description : Option JsString
  phone : Option JsString
  email : Option JsString
  city : Option JsString
  deriving DecidableEq, Repr

/-- The error object: its own properties in insertion order, each a key with
its message. -/
abbrev ErrorMap := List (String × String)

/-- The expression `Object.keys(errors)`. -/
def ErrorMap.keys (errors : ErrorMap) : List String := errors.map Prod.fst

/-- The record `{ isValid, errors }` returned by `validateServiceForm`. -/
structure FormValidation where
  isValid : Bool
  errors : ErrorMap
  deriving DecidableEq, Repr

/-- Truthiness of a string-valued field: present and not the empty string. -/
def truthy (v : Option JsString) : Bool :=
  match v with
  | none => false
  | some s => !s.isEmpty

/-- Function `validateServiceForm`. -/
def validateServiceForm (toLowerCase : JsString → JsString) (formData : ServiceForm) :
    FormValidation :=
  let errors : ErrorMap := []
  let nameValidation := validateServiceName formData.name
  let errors :=
    if !nameValidation.isValid then errors ++ [("name", nameValidation.message)] else errors
  let errors :=
    if !validateCategory toLowerCase formData.category then
      errors ++ [("category", "Please select a valid category")]
    else errors
  let descValidation := validateDescription formData.description
  let errors :=
    if !descValidation.isValid then errors ++ [("description", descValidation.message)]
    else errors
  let errors :=
    if truthy formData.phone && !validatePhone formData.phone then
      errors ++ [("phone", "Please enter a valid phone number")]
    else errors
  let errors :=
    if !validateEmail formData.email then
      errors ++ [("email", "Please enter a valid email address")]
    else errors
  let cityValidation := validateCity formData.city
  let errors :=
    if !cityValidation.isValid then errors ++ [("city", cityValidation.message)] else errors
  { isValid := errors.keys.length == 0, errors := errors }

/-! ## Listings and client-side query logic (`src/utils/useServices.js`) -/

/-- A listing document as the client reads it. `createdAt` is the time value
that `new Date(createdAt)` denotes, `none` when the field is absent; `rating`
is a finite number. -/
structure Listing where
  id : String
  name : JsString
  category : JsString
  description : JsString
  phone : JsString
  email : JsString
  city : JsString
  rating : ℚ
  createdAt : Option Int
  deriving DecidableEq, Repr

/-- The expression `new Date(x.createdAt || 0)` as a number. -/
def Listing.timeValue (x : Listing) : ℚ := ((x.createdAt.getD 0 : Int) : ℚ)

/-- The comparator passed to `sort` in `applyFilters` and in `ServiceList`:
the `switch (sortBy)` on the sort key. -/
def compareBy (localeCompare : JsString → JsString → ℚ) (sortBy : String)
    (a b : Listing) : ℚ :=
  if sortBy = "newest" then b.timeValue - a.timeValue
  else if sortBy = "oldest" then a.timeValue - b.timeValue
  else if sortBy = "rating-high" then b.rating - a.rating
  else if sortBy = "rating-low" then a.rating - b.rating
  else if sortBy = "name" then localeCompare a.name b.name
  else 0

/-- The method `Array.prototype.sort(comparefn)`: a stable sort that puts `a`
before `b` when `comparefn(a, b) < 0`, after it when `comparefn(a, b) > 0`,
and keeps their order when it is `0`. -/
def jsSort {α : Type} (comparefn : α → α → ℚ) (xs : List α) : List α :=
  xs.insertionSort (fun a b => comparefn a b ≤ 0)

/-- The state of the hook `useServicesWithFilters` that `applyFilters` reads
and writes. -/
structure FilterState where
  services : List Listing
  filteredServices : List Listing
  searchTerm : JsString
  selectedCategory : JsString
  selectedCity : JsString
  minRating : ℚ
  sortBy : String
  deriving DecidableEq, Repr

namespace useServicesWithFilters

/-- The filtering part of `applyFilters`: the array `filtered` just before the
call to `sort`, and whether it is still the very array held in `services`
(`filter` always allocates a new one). -/
def filterStage (toLowerCase : JsString → JsString) (st : FilterState) :
    List Listing × Bool :=
  let filtered := st.services
  let same := true
  let (filtered, same) :=
    if !st.searchTerm.isEmpty then
      let searchLower := toLowerCase st.searchTerm
      (filtered.filter (fun service =>
        includes (toLowerCase service.name) searchLower ||
        includes (toLowerCase service.description) searchLower ||
        includes (toLowerCase service.category) searchLower ||
        includes (toLowerCase service.city) searchLower), false)
    else (filtered, same)
  let (filtered, same) :=
    if st.selectedCategory ≠ js "All" then
      (filtered.filter (fun service => service.category == st.selectedCategory), false)
    else (filtered, same)
  let (filtered, same) :=
    if st.selectedCity ≠ js "All" then
      (filtered.filter (fun service => service.city == st.selectedCity), false)
    else (filtered, same)
  let (filtered, same) :=
    if st.minRating > 0 then
      (filtered.filter (fun service => decide (service.rating ≥ st.minRating)), false)
    else (filtered, same)
  (filtered, same)

/-- Function `applyFilters` of `useServicesWithFilters`: filter, sort in
place, store the result in `filteredServices`. -/
def applyFilters (toLowerCase : JsString → JsString)
    (localeCompare : JsString → JsString → ℚ) (st : FilterState) : FilterState :=
  let (filtered, same) := filterStage toLowerCase st
  let sorted := jsSort (compareBy localeCompare st.sortBy) filtered
  { st with
    services := if same then sorted else st.services
    filteredServices := sorted }

end useServicesWithFilters

namespace serviceService

/-- Function `serviceService.searchServices`, given the collection that
`getAllServices` resolves to. -/
def searchServices (toLowerCase : JsString → JsString) (allServices : List Listing)
    (searchTerm : JsString) : List Listing :=
  let searchLower := toLowerCase searchTerm
  allServices.filter (fun service =>
    includes (toLowerCase service.name) searchLower ||
    includes (toLowerCase service.description) searchLower ||
    includes (toLowerCase service.category) searchLower ||
    includes (toLowerCase service.city) searchLower)

end serviceService

namespace useServiceSearch

/-- The effect `search` of `useServiceSearch`: the value stored in `results`
for a debounced term. -/
def search (toLowerCase : JsString → JsString) (services : List Listing)
    (debouncedTerm : JsString) : List Listing :=
  if (trim debouncedTerm).isEmpty then []
  else
    let searchLower := toLowerCase debouncedTerm
    services.filter (fun service =>
      includes (toLowerCase service.name) searchLower ||
      includes (toLowerCase service.description) searchLower ||
      includes (toLowerCase service.category) searchLower ||
      includes (toLowerCase service.city) searchLower)

end useServiceSearch

namespace App

/-- The derived value `filteredServices` of `App`. -/
def filteredServices (toLowerCase : JsString → JsString) (services : List Listing)
    (searchTerm selectedCategory : JsString) : List Listing :=
  services.filter (fun service =>
    let matchesSearch :=
      includes (toLowerCase service.name) (toLowerCase searchTerm) ||
      includes (toLowerCase service.category) (toLowerCase searchTerm) ||
      includes (toLowerCase service.city) (toLowerCase searchTerm) ||
      includes (toLowerCase service.description) (toLowerCase searchTerm)
    let matchesCategory :=
      selectedCategory == js "All" ||
      toLowerCase service.category == toLowerCase selectedCategory
    matchesSearch && matchesCategory)

end App

namespace ServiceList

/-- The derived value `sortedServices` of `ServiceList`: a sorted copy. -/
def sortedServices (localeCompare : JsString → JsString → ℚ) (services : List Listing)
    (sortBy : String) : List Listing :=
  jsSort (compareBy localeCompare sortBy) services

end ServiceList

/-! ## Pagination (`useServicePagination`) -/

namespace useServicePagination

/-- The derived value `totalPages`: `Math.ceil(services.length / itemsPerPage)`. -/
def totalPages {α : Type} (services : List α) (itemsPerPage : Nat) : Int :=
  ⌈((services.length : ℚ) / (itemsPerPage : ℚ))⌉

/-- The updater of `nextPage`. -/
def nextPage (totalPages : Int) (prev : Int) : Int := min (prev + 1) totalPages

/-- The updater of `previousPage`. -/
def previousPage (prev : Int) : Int := max (prev - 1) 1

/-- The page that `goToPage(page)` stores. -/
def goToPage (totalPages : Int) (page : Int) : Int := max 1 (min page totalPages)

/-- The page that `reset` stores. -/
def reset : Int := 1

/-- The navigation calls the hook returns. -/
inductive Action where
  | nextPage : Action
  | previousPage : Action
  | goToPage (page : Int) : Action
  | reset : Action
  deriving DecidableEq, Repr

/-- The value of `currentPage` after one navigation call. -/
def step {α : Type} (services : List α) (itemsPerPage : Nat) (currentPage : Int) :
    Action → Int
  | .nextPage => nextPage (totalPages services itemsPerPage) currentPage
  | .previousPage => previousPage currentPage
  | .goToPage page => goToPage (totalPages services itemsPerPage) page
  | .reset => reset

/-- The value of `currentPage` after a sequence of navigation calls, from the
initial state `useState(1)`. -/
def run {α : Type} (services : List α) (itemsPerPage : Nat) (actions : List Action) : Int :=
  actions.foldl (step services itemsPerPage) 1

end useServicePagination

/-! ## Specification-side definitions -/

/-- The shape `local@domain.tld` in the words of the specification: exactly
one `@`, no whitespace, a non-empty part before the `@`, and after the `@` a
`.` with at least one character before it and at least one after it. -/
def EmailShape (t : JsString) : Prop :=
  t.count atSign = 1 ∧ (∀ c ∈ t, isWhiteSpace c = false) ∧
  ∃ loc rest, t = loc ++ atSign :: rest ∧ loc ≠ [] ∧
    ∃ dom tld, rest = dom ++ fullStop :: tld ∧ dom ≠ [] ∧ tld ≠ []

/-- The text condition in the words of the specification: the lower-cased term
is a substring of the lower-cased name, description, category or city. -/
def TextMatch (toLowerCase : JsString → JsString) (term : JsString) (s : Listing) : Prop :=
  toLowerCase term <:+: toLowerCase s.name ∨
  toLowerCase term <:+: toLowerCase s.description ∨
  toLowerCase term <:+: toLowerCase s.category ∨
  toLowerCase term <:+: toLowerCase s.city

/-- The mapping that `toLowerCase` performs on strings of Basic Latin code
units, used to evaluate examples. -/
def toLowerCaseAscii (s : JsString) : JsString :=
  s.map (fun c => if 65 ≤ c ∧ c ≤ 90 then c + 32 else c)

/-- A form field that is empty: absent, or the empty string. -/
def FieldEmpty (v : Option JsString) : Prop := v = none ∨ v = some []

/-- A form that every field validator accepts. -/
def sampleForm : ServiceForm :=
  { name := some (js "Joe Plumbing"), category := some (js "Plumbing"),
    description := some (js "Fixes leaking pipes fast"), phone := some (js "081 234 5678"),
    email := some (js "a@b.co"), city := some (js "Cape Town") }

instance (toLowerCase : JsString → JsString) (term : JsString) :
    DecidablePred (TextMatch toLowerCase term) := fun s => by
  unfold TextMatch
  exact inferInstance

/-- The condition for a listing to be visible, in the words of the
specification: every active criterion holds. -/
def Visible (toLowerCase : JsString → JsString) (st : FilterState) (s : Listing) : Prop :=
  (st.searchTerm = [] ∨ TextMatch toLowerCase st.searchTerm s) ∧
  (st.selectedCategory = js "All" ∨ s.category = st.selectedCategory) ∧
  (st.selectedCity = js "All" ∨ s.city = st.selectedCity) ∧
  (¬ st.minRating > 0 ∨ s.rating ≥ st.minRating)

instance (toLowerCase : JsString → JsString) (st : FilterState) :
    DecidablePred (Visible toLowerCase st) := fun s => by
  unfold Visible
  exact inferInstance

/-- Three listings with ratings 5, 3 and 4, in that order. -/
def sampleServices : List Listing :=
  [ { id := "a", name := js "Joe Plumbing", category := js "plumbing",
      description := js "Pipes and drains", phone := js "081 234 5678",
      email := js "joe@pipes.co", city := js "Durban", rating := 5, createdAt := some 3 },
    { id := "b", name := js "Bright Sparks", category := js "electrical",
      description := js "Wiring and lights", phone := js "082 123 4567",
      email := js "info@sparks.co", city := js "Cape Town", rating := 3,
      createdAt := some 1 },
    { id := "c", name := js "Green Thumb", category := js "gardening",
      description := js "Lawns, hedges, PLUMBAGO", phone := js "083 555 0101",
      email := js "hi@thumb.co", city := js "Pretoria", rating := 4, createdAt := none } ]

/-- A hook state over `sampleServices` with no filter active. -/
def sampleState (sortBy : String) : FilterState :=
  { services := sampleServices, filteredServices := [], searchTerm := [],
    selectedCategory := js "All", selectedCity := js "All", minRating := 0,
    sortBy := sortBy }

/-- Number of decimal digits among the code units of a string. -/
def digitCount (s : JsString) : Nat :=
  s.countP (fun c => decide (48 ≤ c ∧ c ≤ 57))

/-! ## Further validators (`src/utils/validators.js`) -/

/-- Function `validatePassword`. -/
def validatePassword (password : Option JsString) : ValidationResult :=
  match password with
  | none => { isValid := false, message := "Password is required" }
  | some p =>
    if p.isEmpty then { isValid := false, message := "Password is required" }
    else if p.length < 6 then
      { isValid := false, message := "Password must be at least 6 characters" }
    else if p.length > 128 then
      { isValid := false, message := "Password is too long" }
    else { isValid := true, message := "Password is valid" }

/-! ## Page reset of `useServicePagination` -/

namespace useServicePagination

/-- What one instance of the hook keeps between renders: the state
`currentPage` and the value of the dependency `services.length` at the last
run of the resetting effect. -/
structure Hook where
  currentPage : Int
  effectDep : Nat
  deriving DecidableEq, Repr

/-- The first render: `useState(1)`, and the effect runs once. -/
def mount {α : Type} (services : List α) : Hook :=
  { currentPage := 1, effectDep := services.length }

/-- A later render with the collection `services`: the effect
`useEffect(() => setCurrentPage(1), [services.length])` runs only when the
dependency differs from its value at the previous run. -/
def rerender {α : Type} (services : List α) (h : Hook) : Hook :=
  if services.length = h.effectDep then h
  else { currentPage := 1, effectDep := services.length }

/-- A navigation call between renders, on the collection currently shown. -/
def navigate {α : Type} (services : List α) (itemsPerPage : Nat) (a : Action) (h : Hook) :
    Hook :=
  { h with currentPage := step services itemsPerPage h.currentPage a }

end useServicePagination

/-! ## Auth gating in `App` (`src/App.jsx`) -/

namespace App

/-- The object `currentUser` of an authenticated session. -/
structure User where
  uid : JsString
  deriving DecidableEq, Repr

/-- What a handler does besides setting state. -/
inductive Effect where
  | alert (message : JsString) : Effect
  | backend (operation : String) : Effect
  deriving DecidableEq, Repr

/-- The state variables of `App`. -/
structure State where
  sidebarOpen : Bool
  addServiceOpen : Bool
  authModalOpen : Bool
  rateModalOpen : Bool
  selectedService : Option Listing
  services : List Listing
  searchTerm : JsString
  selectedCategory : JsString
  loading : Bool
  deriving DecidableEq, Repr

/-- Function `handleContact`: the next state and the effects performed. -/
def handleContact (currentUser : Option User) (service : Listing) (st : State) :
    State × List Effect :=
  match currentUser with
  | none => ({ st with authModalOpen := true }, [])
  | some _ =>
    (st, [Effect.alert (js "Contacting " ++ service.name ++ js "\n\nPhone: " ++ service.phone ++
      js "\nEmail: " ++ service.email ++ js "\n\nYou can now reach out to them directly!")])

/-- Function `handleRate`: the next state and the effects performed. -/
def handleRate (currentUser : Option User) (service : Listing) (st : State) :
    State × List Effect :=
  match currentUser with
  | none => ({ st with authModalOpen := true }, [])
  | some _ => ({ st with selectedService := some service, rateModalOpen := true }, [])

end App

/-! ## Debouncing in `useServiceSearch` -/

namespace useServiceSearch

/-- One instance of the hook over a fixed collection, between events. `timer`
is the pending timeout: the time it is due and the term its callback
captured. `debounceLog` records the calls of `setDebouncedTerm`, `searchLog`
the runs of the search effect, each with its time. -/
structure Hook where
  searchTerm : JsString
  debouncedTerm : JsString
  timer : Option (Nat × JsString)
  debounceLog : List (Nat × JsString)
  searchLog : List (Nat × JsString)
  deriving DecidableEq, Repr

/-- A hook with no timeout pending and empty logs. -/
def idle (searchTerm debouncedTerm : JsString) : Hook :=
  { searchTerm := searchTerm, debouncedTerm := debouncedTerm, timer := none,
    debounceLog := [], searchLog := [] }

/-- The pending timeout fires: its callback calls `setDebouncedTerm` with the
captured term, and the search effect, whose dependency is `debouncedTerm`,
runs when that state changed. -/
def fire (h : Hook) : Hook :=
  match h.timer with
  | none => h
  | some (due, term) =>
    { h with
      timer := none
      debouncedTerm := term
      debounceLog := h.debounceLog ++ [(due, term)]
      searchLog := if term ≠ h.debouncedTerm then h.searchLog ++ [(due, term)]
        else h.searchLog }

/-- Time passes up to `now`: a timeout that is due fires. -/
def advance (now : Nat) (h : Hook) : Hook :=
  match h.timer with
  | none => h
  | some (due, _) => if due ≤ now then fire h else h

/-- The call `setSearchTerm(term)` at time `now`. When the state changes, the
effect with dependency `searchTerm` runs again: its cleanup clears the pending
timeout and a new one is set for 300 units later. -/
def setSearchTerm (now : Nat) (term : JsString) (h : Hook) : Hook :=
  let h := advance now h
  if term = h.searchTerm then h
  else { h with searchTerm := term, timer := some (now + 300, term) }

/-- A sequence of calls of `setSearchTerm`, each with its time. -/
def run (h : Hook) (calls : List (Nat × JsString)) : Hook :=
  calls.foldl (fun h c => setSearchTerm c.1 c.2 h) h

end useServiceSearch

/-! ## Writing listings (`src/firebase/firebaseServices.js`) -/

/-- The sentinel `serverTimestamp()`. -/
inductive ServerTimestamp where
  | sentinel : ServerTimestamp
  deriving DecidableEq, Repr

/-- The argument `serviceData` of `addService`; `none` is an absent field. -/
structure ServiceData where
  name : Option JsString
  category : Option JsString
  description : Option JsString
  phone : Option JsString
  email : Option JsString
  city : Option JsString
  image : Option JsString
  rating : Option ℚ
  deriving DecidableEq, Repr

/-- The document that `addService` hands to `addDoc`. -/
structure ServiceRecord where
  name : Option JsString
  description : Option JsString
  phone : Option JsString
  email : Option JsString
  city : Option JsString
  image : Option JsString
  userId : JsString
  rating : ℚ
  category : JsString
  createdAt : ServerTimestamp
  updatedAt : ServerTimestamp
  deriving DecidableEq, Repr

/-- The fields that `updateRating` hands to `updateDoc`. -/
structure RatingUpdate where
  rating : ℚ
  updatedAt : ServerTimestamp
  deriving DecidableEq, Repr

namespace serviceService

/-- Function `serviceService.addService` up to the remote call: the document
written, or the message of the error thrown. A missing `category` makes
`serviceData.category.toLowerCase()` throw inside the `try`. -/
def addService (toLowerCase : JsString → JsString) (serviceData : ServiceData)
    (userId : Option JsString) : Except String ServiceRecord :=
  if !truthy userId then .error "Failed to add service"
  else
    match userId, serviceData.category with
    | some uid, some category =>
      .ok
        { name := serviceData.name
          description := serviceData.description
          phone := serviceData.phone
          email := serviceData.email
          city := serviceData.city
          image := serviceData.image
          userId := uid
          rating :=
            match serviceData.rating with
            | none => 5
            | some r => if r = 0 then 5 else r
          category := toLowerCase category
          createdAt := .sentinel
          updatedAt := .sentinel }
    | _, _ => .error "Failed to add service"

/-- Function `serviceService.updateRating` up to the remote call: the fields
written, or the message of the error thrown. -/
def updateRating (serviceId : Option JsString) (newRating : ℚ) :
    Except String RatingUpdate :=
  if !truthy serviceId then .error "Failed to update rating"
  else if newRating < 1 ∨ newRating > 5 then .error "Failed to update rating"
  else .ok { rating := newRating, updatedAt := .sentinel }

end serviceService

namespace AddServiceModal

/-- The object `{ ...formData, image: imageUrl }` that `handleSubmit` passes
to `addService`. -/
def serviceData (formData : ServiceForm) (imageUrl : JsString) : ServiceData :=
  { name := formData.name, category := formData.category,
    description := formData.description, phone := formData.phone,
    email := formData.email, city := formData.city, image := some imageUrl,
    rating := none }

end AddServiceModal

/-! ## Auth error messages (`src/firebase/firebaseServices.js`) -/

/-- The object literal `errorMessages` of `getAuthErrorMessage`: its own
properties. -/
def errorMessages : List (String × String) :=
  [ ("auth/email-already-in-use", "This email is already registered"),
    ("auth/invalid-email", "Invalid email address"),
    ("auth/operation-not-allowed", "Operation not allowed"),
    ("auth/weak-password", "Password is too weak"),
    ("auth/user-disabled", "This account has been disabled"),
    ("auth/user-not-found", "No account found with this email"),
    ("auth/wrong-password", "Incorrect password"),
    ("auth/too-many-requests", "Too many attempts. Please try again later"),
    ("auth/network-request-failed", "Network error. Please check your connection"),
    ("auth/requires-recent-login", "Please log in again to perform this action") ]

/-- The property names every object literal inherits from `Object.prototype`. -/
def objectPrototypeKeys : List String :=
  [ "constructor", "hasOwnProperty", "isPrototypeOf", "propertyIsEnumerable",
    "toLocaleString", "toString", "valueOf", "__proto__", "__defineGetter__",
    "__defineSetter__", "__lookupGetter__", "__lookupSetter__" ]

/-- The value of a property read `obj[key]` on an object literal with string
values: an own string, a function or object inherited from `Object.prototype`,
or `undefined`. -/
inductive PropertyValue where
  | undefined : PropertyValue
  | string (s : String) : PropertyValue
  | inherited (key : String) : PropertyValue
  deriving DecidableEq, Repr

/-- Truthiness of a property value. -/
def PropertyValue.truthy : PropertyValue → Bool
  | .undefined => false
  | .string s => s != ""
  | .inherited _ => true

/-- The read `obj[key]`: own properties first, then the prototype. -/
def getProperty (obj : List (String × String)) (key : String) : PropertyValue :=
  match obj.lookup key with
  | some v => .string v
  | none => if key ∈ objectPrototypeKeys then .inherited key else .undefined

/-- Function `getAuthErrorMessage`; a missing code is the key `undefined`. -/
def getAuthErrorMessage (errorCode : Option String) : PropertyValue :=
  let key := errorCode.getD "undefined"
  let found := getProperty errorMessages key
  if found.truthy then found else .string "An error occurred. Please try again"

/-- How a remote call of the identity provider or the document store ends:
it resolves, or it rejects with an error whose `code` may be absent. -/
inductive Remote (α : Type) where
  | resolved (value : α) : Remote α
  | rejected (code : Option String) : Remote α

namespace authService

/-- Function `authService.signIn`, given how `signInWithEmailAndPassword`
ends: the user, or the value the thrown `Error` is built from. -/
def signIn (signInWithEmailAndPassword : Remote App.User) : Except PropertyValue App.User :=
  match signInWithEmailAndPassword with
  | .resolved user => .ok user
  | .rejected code => .error (getAuthErrorMessage code)

/-- Function `authService.signUp`, given how `createUserWithEmailAndPassword`
and then `addDoc` end. -/
def signUp (createUserWithEmailAndPassword : Remote App.User) (addDoc : Remote Unit) :
    Except PropertyValue App.User :=
  match createUserWithEmailAndPassword with
  | .rejected code => .error (getAuthErrorMessage code)
  | .resolved user =>
    match addDoc with
    | .rejected code => .error (getAuthErrorMessage code)
    | .resolved _ => .ok user

end authService

/-! ## Specification-side definitions for the further claims -/

/-- The characters the specification allows in a city name: a letter, a
space, a hyphen or an apostrophe. -/
def CityCharSpec (c : Nat) : Prop :=
  (97 ≤ c ∧ c ≤ 122) ∨ (65 ≤ c ∧ c ≤ 90) ∨ c = 32 ∨ c = 45 ∨ c = 39

instance : DecidablePred CityCharSpec := fun c => by
  unfold CityCharSpec
  exact inferInstance

/-- The eleven user-facing messages: the ten of the table and the fallback. -/
def authMessages : List String :=
  errorMessages.map Prod.snd ++ ["An error occurred. Please try again"]

/-- Consecutive calls less than 300 time units apart, in time order, each
with a term different from the one before. -/
def QuickChanges (a b : Nat × JsString) : Prop :=
  a.1 ≤ b.1 ∧ b.1 < a.1 + 300 ∧ a.2 ≠ b.2

/-- Five keystrokes spelling `plumb`, each less than 300 units after the
previous one. -/
def sampleKeystrokes : List (Nat × JsString) :=
  [(100, js "pl"), (200, js "plu"), (350, js "plum"), (500, js "plumb")]

/-- The argument of `addService` built from `sampleForm` with a rating of 7. -/
def sampleDataRatedSeven : ServiceData :=
  { AddServiceModal.serviceData sampleForm (js "") with rating := some 7 }

/-! ## Values and objects -/

/-- An ECMAScript value as far as the functions below distinguish them. -/
inductive JsValue where
  | undefined : JsValue
  | null : JsValue
  | bool (b : Bool) : JsValue
  | number (q : ℚ) : JsValue
  | string (s : JsString) : JsValue
  | serverTimestamp : JsValue
  deriving DecidableEq, Repr

/-- An object as the map from its own property names to their values. -/
abbrev JsObject := String → Option JsValue

/-! ## Sanitising (`src/utils/validators.js`) -/

/-- The class `[<>]`. -/
def ltOrGt (c : Nat) : Bool := c == 60 || c == 62

/-- The method `String.prototype.substring` on non-negative integers: the
smaller argument is the start, the larger the end. -/
def substring (s : JsString) (a b : Nat) : JsString :=
  (s.take (max a b)).drop (min a b)

/-- Function `sanitizeInput`. -/
def sanitizeInput (input : JsValue) : JsString :=
  match input with
  | .string s =>
    if s.isEmpty then []
    else substring (removeAll ltOrGt (trim s)) 0 1000
  | _ => []

/-! ## Image files -/

/-- The properties of a `File` that the checks read. -/
structure ImageFile where
  name : JsString
  type : JsString
  size : Nat
  deriving DecidableEq, Repr

/-- The array `validTypes` of `validateImageFile`. -/
def validateImageFile.validTypes : List JsString :=
  [js "image/jpeg", js "image/jpg", js "image/png", js "image/webp", js "image/gif"]

/-- Function `validateImageFile`. -/
def validateImageFile (file : Option ImageFile) : ValidationResult :=
  match file with
  | none => { isValid := false, message := "No file selected" }
  | some f =>
    let maxSize := 5 * 1024 * 1024
    if f.size > maxSize then
      { isValid := false, message := "Image size must be less than 5MB" }
    else if !validateImageFile.validTypes.contains f.type then
      { isValid := false,
        message := "Invalid file type. Please upload JPG, PNG, WEBP, or GIF" }
    else { isValid := true, message := "Image is valid" }

/-- The arguments of the remote call `uploadBytes`. -/
structure UploadRequest where
  path : JsString
  file : ImageFile
  deriving DecidableEq, Repr

namespace storageService

/-- The array `validTypes` of `uploadImage`. -/
def validTypes : List JsString :=
  [js "image/jpeg", js "image/jpg", js "image/png", js "image/webp", js "image/gif"]

/-- Function `storageService.uploadImage` up to the remote call: the upload
requested, or the message of the error thrown. `timestamp` is the rendering
of `Date.now()` and `randomString` the random part of the file name. -/
def uploadImage (timestamp randomString : JsString) (file : Option ImageFile)
    (folder : JsString) : Except String UploadRequest :=
  match file with
  | none => .error "No file provided"
  | some f =>
    if !validTypes.contains f.type then
      .error "Invalid file type. Please upload JPG, PNG, WEBP, or GIF"
    else
      let maxSize := 5 * 1024 * 1024
      if f.size > maxSize then .error "File size exceeds 5MB limit"
      else
        let filename := timestamp ++ js "_" ++ randomString ++ js "_" ++ f.name
        .ok { path := folder ++ js "/" ++ filename, file := f }

end storageService

/-! ## Updating a listing -/

namespace serviceService

/-- Function `serviceService.updateService` up to the remote call: the data
handed to `updateDoc`, or the message of the error thrown. Destructuring a
missing `updateData` throws inside the `try`. -/
def updateService (serviceId : Option JsString) (updateData : Option JsObject) :
    Except String JsObject :=
  if !truthy serviceId then .error "Failed to update service"
  else
    match updateData with
    | none => .error "Failed to update service"
    | some data =>
      let dataToUpdate : JsObject := fun k =>
        if k = "id" ∨ k = "userId" ∨ k = "createdAt" then none else data k
      .ok (fun k => if k = "updatedAt" then some .serverTimestamp else dataToUpdate k)

end serviceService

/-! ## Submitting the add-listing form (`AddServiceModal.jsx`) -/

namespace AddServiceModal

/-- The state variables of `AddServiceModal`. -/
structure State where
  formData : ServiceForm
  imageFile : Option ImageFile
  imagePreview : Option JsString
  uploading : Bool
  errors : ErrorMap
  deriving DecidableEq, Repr

/-- What `handleSubmit` does besides setting state, in order. -/
inductive Op where
  | uploadImage (file : ImageFile) (folder : JsString) : Op
  | addService (data : ServiceData) (userId : JsString) : Op
  | alert (message : String) : Op
  | onServiceAdded : Op
  | onClose : Op
  deriving DecidableEq, Repr

/-- The form after a successful submit. -/
def resetForm (currentUserEmail : Option JsString) : ServiceForm :=
  { name := some [], category := some [], description := some [], phone := some [],
    email := some (if truthy currentUserEmail then currentUserEmail.getD [] else []),
    city := some [] }

/-- Function `handleSubmit`: the next state and the operations performed.
`uploadImage` and `addService` say how the two backend calls end,
`currentUserEmail` is `currentUser?.email`, and `nullUserMessage` is the
message of the `TypeError` raised by `currentUser.uid` without a user. -/
def handleSubmit (toLowerCase : JsString → JsString) (currentUser : Option App.User)
    (currentUserEmail : Option JsString) (nullUserMessage : String)
    (uploadImage : ImageFile → Except String JsString)
    (addService : ServiceData → JsString → Except String Unit)
    (hasOnServiceAdded : Bool) (st : State) : State × List Op :=
  let validation := validateServiceForm toLowerCase st.formData
  if !validation.isValid then ({ st with errors := validation.errors }, [])
  else
    let failed (ops : List Op) (message : String) : State × List Op :=
      ({ st with uploading := false }, ops ++ [.alert ("Error adding service: " ++ message)])
    let uploaded : Except String JsString × List Op :=
      match st.imageFile with
      | none => (.ok (js ""), [])
      | some f => (uploadImage f, [.uploadImage f (js "services")])
    match uploaded with
    | (.error message, ops) => failed ops message
    | (.ok imageUrl, ops) =>
      match currentUser with
      | none => failed ops nullUserMessage
      | some user =>
        let data := serviceData st.formData imageUrl
        let ops := ops ++ [.addService data user.uid]
        match addService data user.uid with
        | .error message => failed ops message
        | .ok _ =>
          ({ formData := resetForm currentUserEmail, imageFile := none, imagePreview := none,
             uploading := false, errors := [] },
           ops ++ [.alert "Service added successfully!"] ++
             (if hasOnServiceAdded then [.onServiceAdded] else []) ++ [.onClose])

end AddServiceModal

/-! ## Pages of `useServicePagination` -/

/-- The method `Array.prototype.slice(start, end)` on integers: a negative
index counts from the end, and both are clamped to the array. -/
def slice {α : Type} (xs : List α) (start stop : Int) : List α :=
  let len : Int := xs.length
  let k := if start < 0 then max (len + start) 0 else min start len
  let final := if stop < 0 then max (len + stop) 0 else min stop len
  (xs.drop k.toNat).take (final - k).toNat

namespace useServicePagination

/-- The derived value `startIndex`. -/
def startIndex (currentPage : Int) (itemsPerPage : Nat) : Int :=
  (currentPage - 1) * itemsPerPage

/-- The derived value `endIndex`. -/
def endIndex (currentPage : Int) (itemsPerPage : Nat) : Int :=
  startIndex currentPage itemsPerPage + itemsPerPage

/-- The derived value `currentServices`. -/
def currentServices {α : Type} (services : List α) (itemsPerPage : Nat) (currentPage : Int) :
    List α :=
  slice services (startIndex currentPage itemsPerPage) (endIndex currentPage itemsPerPage)

end useServicePagination

/-! ## Password strength (`SignUpForm.jsx`) -/

namespace SignUpForm

/-- The class `[a-z]`. -/
def isLower (c : Nat) : Bool := decide (97 ≤ c) && decide (c ≤ 122)

/-- The class `[A-Z]`. -/
def isUpper (c : Nat) : Bool := decide (65 ≤ c) && decide (c ≤ 90)

/-- The class `[^a-zA-Z\d]`. -/
def isSpecial (c : Nat) : Bool := !(isLower c || isUpper c || isDigit c)

/-- The call `/[C]/.test(s)` for a one-character class `C`: some code unit of
`s` is in the class. -/
def testClass (cls : Nat → Bool) (s : JsString) : Bool := s.any cls

/-- Function `calculatePasswordStrength`. -/
def calculatePasswordStrength (password : JsString) : Nat :=
  let strength := 0
  let strength := if password.length ≥ 6 then strength + 1 else strength
  let strength := if password.length ≥ 10 then strength + 1 else strength
  let strength :=
    if testClass isLower password && testClass isUpper password then strength + 1
    else strength
  let strength := if testClass isDigit password then strength + 1 else strength
  let strength := if testClass isSpecial password then strength + 1 else strength
  strength

/-- The array `labels` of `getPasswordStrengthLabel`. -/
def labels : List String := ["Very Weak", "Weak", "Fair", "Good", "Strong"]

/-- Function `getPasswordStrengthLabel`, reading the state `passwordStrength`:
`labels[passwordStrength] || ''`. -/
def getPasswordStrengthLabel (passwordStrength : Nat) : String :=
  (labels.get? passwordStrength).getD ""

end SignUpForm

/-! ## Specification-side definitions for the last claims -/

/-- An update payload that carries a name and an `updatedAt` of its own. -/
def samplePayload : JsObject := fun k =>
  if k = "name" then some (.string (js "Joe Plumbing and Sons"))
  else if k = "userId" then some (.string (js "u2"))
  else if k = "updatedAt" then some (.number 5)
  else none

/-- A state of the add-listing form whose name is still empty. -/
def sampleModalState : AddServiceModal.State :=
  { formData := { sampleForm with name := some [] }, imageFile := none, imagePreview := none,
    uploading := false, errors := [] }

/-! ## Regular expressions: the matcher decides the denotation -/

namespace Regex

theorem nullable_iff (r : Regex) : r.nullable = true ↔ [] ∈ r.lang := by
  induction r with
  | never => simp [nullable, lang, Language.not_mem_zero]
  | empty => simp [nullable, lang, Language.mem_one]
  | cls p =>
    simp only [nullable, lang, Bool.false_eq_true, false_iff]
    rintro ⟨c, _, hc⟩
    exact List.noConfusion hc
  | seq a b iha ihb =>
    simp only [nullable, lang, Bool.and_eq_true, iha, ihb, Language.mem_mul]
    constructor
    · rintro ⟨ha, hb⟩
      exact ⟨[], ha, [], hb, rfl⟩
    · rintro ⟨u, hu, v, hv, huv⟩
      obtain ⟨rfl, rfl⟩ := List.append_eq_nil.mp huv
      exact ⟨hu, hv⟩
  | alt a b iha ihb =>
    simp only [nullable, lang, Bool.or_eq_true, iha, ihb, Language.mem_add]
  | star a _ =>
    simp only [nullable, lang, true_iff]
    exact Language.nil_mem_kstar _

theorem cons_mem_kstar_iff (L : Language Nat) (c : Nat) (s : List Nat) :
    c :: s ∈ KStar.kstar L ↔ ∃ u v, c :: u ∈ L ∧ v ∈ KStar.kstar L ∧ u ++ v = s := by
  constructor
  · intro h
    rw [Language.kstar_def_nonempty] at h
    obtain ⟨S, hS, hall⟩ := h
    cases S with
    | nil => simp at hS
    | cons y S' =>
      have hy := hall y (List.mem_cons_self _ _)
      cases y with
      | nil => exact absurd rfl hy.2
      | cons d u =>
        simp only [List.flatten_cons, List.cons_append, List.cons.injEq] at hS
        obtain ⟨rfl, rfl⟩ := hS
        refine ⟨u, S'.flatten, hy.1, ?_, rfl⟩
        rw [Language.kstar_def_nonempty]
        exact ⟨S', rfl, fun z hz => hall z (List.mem_cons_of_mem _ hz)⟩
  · rintro ⟨u, v, hu, hv, rfl⟩
    have hmul : (c :: u) ++ v ∈ L * KStar.kstar L :=
      Language.mem_mul.mpr ⟨c :: u, hu, v, hv, rfl⟩
    have hsub : L * KStar.kstar L ≤ KStar.kstar L := by
      conv_rhs => rw [← Language.one_add_self_mul_kstar_eq_kstar]
      exact le_sup_right
    exact hsub hmul

theorem deriv_iff (r : Regex) (c : Nat) (s : List Nat) :
    s ∈ (r.deriv c).lang ↔ c :: s ∈ r.lang := by
  induction r generalizing s with
  | never => simp [deriv, lang, Language.not_mem_zero]
  | empty => simp [deriv, lang, Language.not_mem_zero, Language.mem_one]
  | cls p =>
    by_cases hp : p c = true
    · simp only [deriv, hp, if_true, lang, Language.mem_one]
      constructor
      · rintro rfl
        exact ⟨c, hp, rfl⟩
      · rintro ⟨d, _, hd⟩
        exact (List.cons.inj hd).2
    · simp only [deriv, hp, lang, Language.not_mem_zero, false_iff]
      rintro ⟨d, hd, hcd⟩
      obtain ⟨rfl, _⟩ := List.cons.inj hcd
      exact hp hd
  | seq a b iha ihb =>
    have key : c :: s ∈ a.lang * b.lang ↔
        (∃ u v, c :: u ∈ a.lang ∧ v ∈ b.lang ∧ u ++ v = s) ∨
        ([] ∈ a.lang ∧ c :: s ∈ b.lang) := by
      rw [Language.mem_mul]
      constructor
      · rintro ⟨u, hu, v, hv, huv⟩
        cases u with
        | nil => exact Or.inr ⟨hu, by simpa using huv ▸ hv⟩
        | cons d u =>
          simp only [List.cons_append, List.cons.injEq] at huv
          obtain ⟨rfl, rfl⟩ := huv
          exact Or.inl ⟨u, v, hu, hv, rfl⟩
      · rintro (⟨u, v, hu, hv, rfl⟩ | ⟨hn, hb⟩)
        · exact ⟨c :: u, hu, v, hv, rfl⟩
        · exact ⟨[], hn, c :: s, hb, rfl⟩
    have hseq : s ∈ (seq (a.deriv c) b).lang ↔
        ∃ u v, c :: u ∈ a.lang ∧ v ∈ b.lang ∧ u ++ v = s := by
      simp only [lang, Language.mem_mul]
      constructor
      · rintro ⟨u, hu, v, hv, rfl⟩
        exact ⟨u, v, (iha u).mp hu, hv, rfl⟩
      · rintro ⟨u, v, hu, hv, rfl⟩
        exact ⟨u, (iha u).mpr hu, v, hv, rfl⟩
    by_cases hn : a.nullable = true
    · simp only [deriv, hn, if_true]
      rw [show (seq a b).lang = a.lang * b.lang from rfl, key]
      rw [show (alt (seq (a.deriv c) b) (b.deriv c)).lang =
        (seq (a.deriv c) b).lang + (b.deriv c).lang from rfl, Language.mem_add, hseq, ihb]
      simp [(nullable_iff a).mp hn]
    · simp only [deriv, hn, Bool.false_eq_true, if_false]
      rw [show (seq a b).lang = a.lang * b.lang from rfl, key, hseq]
      have : ¬ [] ∈ a.lang := fun h => hn ((nullable_iff a).mpr h)
      simp [this]
  | alt a b iha ihb =>
    simp only [deriv, lang, Language.mem_add, iha, ihb]
  | star a iha =>
    rw [show (star a).lang = KStar.kstar a.lang from rfl, cons_mem_kstar_iff]
    simp only [deriv, lang, Language.mem_mul]
    constructor
    · rintro ⟨u, hu, v, hv, rfl⟩
      exact ⟨u, v, (iha u).mp hu, hv, rfl⟩
    · rintro ⟨u, v, hu, hv, rfl⟩
      exact ⟨u, (iha u).mpr hu, v, hv, rfl⟩

/-- The derivative matcher accepts exactly the strings the expression denotes. -/
theorem test_iff (r : Regex) (s : List Nat) : r.test s = true ↔ s ∈ r.lang := by
  induction s generalizing r with
  | nil => simpa [test] using nullable_iff r
  | cons c s ih => rw [test, ih, deriv_iff]

theorem lang_seq (a b : Regex) : (seq a b).lang = a.lang * b.lang := rfl

/-- The words of `(cls p)*` are the strings all of whose code units are in the class. -/
theorem mem_lang_star_cls (p : Nat → Bool) (s : List Nat) :
    s ∈ (star (cls p)).lang ↔ ∀ c ∈ s, p c = true := by
  induction s with
  | nil =>
    simp only [List.not_mem_nil, false_implies, implies_true, iff_true]
    exact (nullable_iff (star (cls p))).mp rfl
  | cons d s ih =>
    rw [show (star (cls p)).lang = KStar.kstar (cls p).lang from rfl, cons_mem_kstar_iff]
    constructor
    · rintro ⟨u, v, ⟨e, he, hde⟩, hv, rfl⟩
      obtain ⟨rfl, rfl⟩ := List.cons.inj hde
      intro x hx
      rcases List.mem_cons.mp hx with rfl | hx
      · exact he
      · exact (ih.mp hv) x (by simpa using hx)
    · intro h
      refine ⟨[], s, ⟨d, h d (List.mem_cons_self _ _), rfl⟩, ?_, rfl⟩
      exact ih.mpr (fun x hx => h x (List.mem_cons_of_mem _ hx))

/-- The words of `(cls p)+` are the non-empty strings over the class. -/
theorem mem_lang_plus_cls (p : Nat → Bool) (s : List Nat) :
    s ∈ (plus (cls p)).lang ↔ s ≠ [] ∧ ∀ c ∈ s, p c = true := by
  rw [show (plus (cls p)).lang = (cls p).lang * (star (cls p)).lang from rfl, Language.mem_mul]
  constructor
  · rintro ⟨u, ⟨e, he, rfl⟩, v, hv, rfl⟩
    refine ⟨by simp, ?_⟩
    intro x hx
    rcases List.mem_cons.mp (by simpa using hx) with rfl | hx
    · exact he
    · exact (mem_lang_star_cls p v).mp hv x hx
  · rintro ⟨hne, h⟩
    cases s with
    | nil => exact absurd rfl hne
    | cons d s =>
      exact ⟨[d], ⟨d, h d (List.mem_cons_self _ _), rfl⟩, s,
        (mem_lang_star_cls p s).mpr (fun x hx => h x (List.mem_cons_of_mem _ hx)), rfl⟩

end Regex

/-! ## Validators: proofs -/

theorem removeAll_isNonDigit_length (p : JsString) :
    (removeAll isNonDigit p).length = digitCount p := by
  unfold removeAll digitCount
  rw [List.countP_eq_length_filter]
  congr 1
  apply List.filter_congr
  intro c _
  simp [isNonDigit, isDigit]

/-- C1: `validatePhone(p)` is true exactly when the number of decimal digits of
`p` lies between 10 and 15; `"081 234 5678"` is accepted, `"12345"` and `""`
are rejected. -/
theorem validatePhone_iff_digitCount :
    (∀ p : JsString,
      validatePhone (some p) = true ↔ 10 ≤ digitCount p ∧ digitCount p ≤ 15) ∧
    validatePhone (some (js "081 234 5678")) = true ∧
    validatePhone (some (js "12345")) = false ∧
    validatePhone (some (js "")) = false := by
  refine ⟨?_, by decide, by decide, by decide⟩
  intro p
  cases p with
  | nil => simp [validatePhone, digitCount]
  | cons c s =>
    simp only [validatePhone, List.isEmpty_cons, Bool.false_eq_true, if_false,
      removeAll_isNonDigit_length]
    simp

theorem trim_infix (s : JsString) : trim s <:+: s :=
  (List.rdropWhile_prefix isWhiteSpace _).isInfix.trans
    (List.dropWhile_suffix isWhiteSpace).isInfix

theorem not_mem_of_notSpaceNorAt {w : List Nat} (h : ∀ c ∈ w, notSpaceNorAt c = true) :
    atSign ∉ w ∧ ∀ c ∈ w, isWhiteSpace c = false := by
  constructor
  · intro hmem
    have := h atSign hmem
    simp [notSpaceNorAt] at this
  · intro c hc
    have := h c hc
    simp only [notSpaceNorAt, Bool.not_eq_true', Bool.or_eq_false_iff] at this
    exact this.1

theorem fullStop_not_space : isWhiteSpace fullStop = false := by decide

theorem atSign_not_space : isWhiteSpace atSign = false := by decide

/-- The strings accepted by `emailRegex`, as a decomposition. -/
theorem emailRegex_test_iff (t : JsString) :
    emailRegex.test t = true ↔
      ∃ loc dom tld, t = loc ++ atSign :: (dom ++ fullStop :: tld) ∧
        (loc ≠ [] ∧ ∀ c ∈ loc, notSpaceNorAt c = true) ∧
        (dom ≠ [] ∧ ∀ c ∈ dom, notSpaceNorAt c = true) ∧
        (tld ≠ [] ∧ ∀ c ∈ tld, notSpaceNorAt c = true) := by
  rw [Regex.test_iff]
  simp only [emailRegex, Regex.lang_seq, Language.mem_mul, Regex.mem_lang_plus_cls]
  constructor
  · rintro ⟨loc, hloc, r1, ⟨x, ⟨c, hc, rfl⟩, r2, ⟨dom, hdom, r3, ⟨y, ⟨d, hd, rfl⟩, tld, htld,
      rfl⟩, rfl⟩, rfl⟩, rfl⟩
    have hc' : c = atSign := by simpa using hc
    have hd' : d = fullStop := by simpa using hd
    subst hc' hd'
    exact ⟨loc, dom, tld, by simp, hloc, hdom, htld⟩
  · rintro ⟨loc, dom, tld, rfl, hloc, hdom, htld⟩
    refine ⟨loc, hloc, _, ⟨[atSign], ⟨atSign, by simp, rfl⟩, _, ⟨dom, hdom, _,
      ⟨[fullStop], ⟨fullStop, by simp, rfl⟩, tld, htld, rfl⟩, rfl⟩, rfl⟩, ?_⟩
    simp

theorem emailRegex_test_iff_shape (t : JsString) :
    emailRegex.test t = true ↔ EmailShape t := by
  rw [emailRegex_test_iff]
  constructor
  · rintro ⟨loc, dom, tld, rfl, ⟨hl, hloc⟩, ⟨hd, hdom⟩, ⟨ht, htld⟩⟩
    obtain ⟨al, wl⟩ := not_mem_of_notSpaceNorAt hloc
    obtain ⟨ad, wd⟩ := not_mem_of_notSpaceNorAt hdom
    obtain ⟨at_, wt⟩ := not_mem_of_notSpaceNorAt htld
    refine ⟨?_, ?_, loc, _, rfl, hl, dom, tld, rfl, hd, ht⟩
    · have hne : ¬ (fullStop = atSign) := by decide
      simp [List.count_append, List.count_cons, List.count_eq_zero.mpr al,
        List.count_eq_zero.mpr ad, List.count_eq_zero.mpr at_, hne]
    · intro c hc
      simp only [List.mem_append, List.mem_cons] at hc
      rcases hc with h | rfl | h | rfl | h
      · exact wl c h
      · exact atSign_not_space
      · exact wd c h
      · exact fullStop_not_space
      · exact wt c h
  · rintro ⟨hcount, hws, loc, rest, rfl, hl, dom, tld, rfl, hd, ht⟩
    have hne : ¬ (fullStop = atSign) := by decide
    simp only [List.count_append, List.count_cons, beq_self_eq_true, if_true, beq_iff_eq,
      hne, if_false] at hcount
    have cl : loc.count atSign = 0 := by omega
    have cd : dom.count atSign = 0 := by omega
    have ct : tld.count atSign = 0 := by omega
    have key : ∀ w : List Nat, w.count atSign = 0 → (∀ c ∈ w, isWhiteSpace c = false) →
        ∀ c ∈ w, notSpaceNorAt c = true := by
      intro w hw hsp c hc
      have hc1 : c ≠ atSign := by
        rintro rfl
        exact (List.count_eq_zero.mp hw) hc
      simp [notSpaceNorAt, hsp c hc, hc1]
    refine ⟨loc, dom, tld, rfl, ⟨hl, key loc cl ?_⟩, ⟨hd, key dom cd ?_⟩, ⟨ht, key tld ct ?_⟩⟩
    · intro c hc
      exact hws c (by simp [hc])
    · intro c hc
      exact hws c (by simp [hc])
    · intro c hc
      exact hws c (by simp [hc])

theorem validateEmail_some (s : JsString) :
    validateEmail (some s) = true ↔ EmailShape (trim s) := by
  cases s with
  | nil =>
    simp only [validateEmail, List.isEmpty_nil, if_true, Bool.false_eq_true, false_iff]
    rintro ⟨hcount, _⟩
    simp [trim, List.rdropWhile] at hcount
  | cons c s =>
    simp only [validateEmail, List.isEmpty_cons, Bool.false_eq_true, if_false]
    exact emailRegex_test_iff_shape _

/-- C2: `validateEmail(s)` is true exactly when the trimmed string has the
shape `local@domain.tld` (one `@`, no whitespace, non-empty local part, and
after the `@` a `.` with a character on each side); a string with no `@`, or
with no `.` after an `@`, is rejected; `"a@b.co"` is accepted. -/
theorem validateEmail_iff_emailShape :
    (∀ s : JsString, validateEmail (some s) = true ↔ EmailShape (trim s)) ∧
    (∀ s : JsString, atSign ∉ s → validateEmail (some s) = false) ∧
    (∀ s : JsString, (∀ pre post, s = pre ++ atSign :: post → fullStop ∉ post) →
      validateEmail (some s) = false) ∧
    validateEmail (some (js "a@b.co")) = true := by
  refine ⟨validateEmail_some, ?_, ?_, by decide⟩
  · intro s hs
    rw [← Bool.not_eq_true, validateEmail_some]
    rintro ⟨_, _, loc, rest, ht, _⟩
    obtain ⟨pre, post, hpp⟩ := trim_infix s
    apply hs
    rw [← hpp, ht]
    simp
  · intro s hs
    rw [← Bool.not_eq_true, validateEmail_some]
    rintro ⟨_, _, loc, rest, ht, _, dom, tld, hr, _, _⟩
    obtain ⟨pre, post, hpp⟩ := trim_infix s
    refine hs (pre ++ loc) (dom ++ fullStop :: tld ++ post) ?_ (by simp)
    rw [← hpp, ht, hr]
    simp

/-! ## Whole-form validation -/

theorem phone_check_eq_false_iff (phone : Option JsString) :
    (truthy phone && !validatePhone phone) = false ↔
      FieldEmpty phone ∨ validatePhone phone = true := by
  unfold FieldEmpty
  cases phone with
  | none => simp [truthy]
  | some p =>
    cases p with
    | nil => simp [truthy]
    | cons c p => cases h : validatePhone (some (c :: p)) <;> simp [truthy]

/-- The keys of the error map, one test per field, in the order of the checks. -/
theorem validateServiceForm_keys (toLowerCase : JsString → JsString) (form : ServiceForm) :
    (validateServiceForm toLowerCase form).errors.keys =
      (if (validateServiceName form.name).isValid then [] else ["name"]) ++
      (if validateCategory toLowerCase form.category then [] else ["category"]) ++
      (if (validateDescription form.description).isValid then [] else ["description"]) ++
      (if truthy form.phone && !validatePhone form.phone then ["phone"] else []) ++
      (if validateEmail form.email then [] else ["email"]) ++
      (if (validateCity form.city).isValid then [] else ["city"]) := by
  cases h1 : (validateServiceName form.name).isValid <;>
  cases h2 : validateCategory toLowerCase form.category <;>
  cases h3 : (validateDescription form.description).isValid <;>
  cases h4 : (truthy form.phone && !validatePhone form.phone) <;>
  cases h5 : validateEmail form.email <;>
  cases h6 : (validateCity form.city).isValid <;>
  simp only [validateServiceForm, ErrorMap.keys, h1, h2, h3, h4, h5, h6, Bool.not_true,
    Bool.not_false, Bool.false_eq_true, if_true, if_false, List.nil_append, List.append_nil,
    List.map_append, List.map_cons, List.map_nil, List.cons_append, List.append_assoc]

theorem validateServiceName_empty {v : Option JsString} (h : FieldEmpty v) :
    (validateServiceName v).isValid = false := by
  rcases h with rfl | rfl <;> rfl

theorem validateDescription_empty {v : Option JsString} (h : FieldEmpty v) :
    (validateDescription v).isValid = false := by
  rcases h with rfl | rfl <;> rfl

theorem validateCategory_empty (toLowerCase : JsString → JsString) {v : Option JsString}
    (h : FieldEmpty v) : validateCategory toLowerCase v = false := by
  rcases h with rfl | rfl <;> rfl

theorem validateEmail_empty {v : Option JsString} (h : FieldEmpty v) :
    validateEmail v = false := by
  rcases h with rfl | rfl <;> rfl

theorem validateCity_empty {v : Option JsString} (h : FieldEmpty v) :
    (validateCity v).isValid = false := by
  rcases h with rfl | rfl <;> rfl

/-- C3: on a form whose required fields are each accepted by their validator
and whose phone is empty or accepted, `validateServiceForm` returns the empty
error map; emptying or removing one required field gives an error map whose
only key is that field. -/
theorem validateServiceForm_required_fields (toLowerCase : JsString → JsString)
    (form : ServiceForm)
    (hname : (validateServiceName form.name).isValid = true)
    (hcat : validateCategory toLowerCase form.category = true)
    (hdesc : (validateDescription form.description).isValid = true)
    (hemail : validateEmail form.email = true)
    (hcity : (validateCity form.city).isValid = true)
    (hphone : FieldEmpty form.phone ∨ validatePhone form.phone = true) :
    (validateServiceForm toLowerCase form).errors = [] ∧
    ∀ v : Option JsString, FieldEmpty v →
      (validateServiceForm toLowerCase { form with name := v }).errors.keys = ["name"] ∧
      (validateServiceForm toLowerCase { form with category := v }).errors.keys =
        ["category"] ∧
      (validateServiceForm toLowerCase { form with description := v }).errors.keys =
        ["description"] ∧
      (validateServiceForm toLowerCase { form with email := v }).errors.keys = ["email"] ∧
      (validateServiceForm toLowerCase { form with city := v }).errors.keys = ["city"] := by
  have hp := (phone_check_eq_false_iff form.phone).mpr hphone
  constructor
  · have hk := validateServiceForm_keys toLowerCase form
    simp only [hname, hcat, hdesc, hemail, hcity, hp, if_true, Bool.false_eq_true, if_false,
      List.append_nil] at hk
    simpa [ErrorMap.keys] using hk
  · intro v hv
    refine ⟨?_, ?_, ?_, ?_, ?_⟩
    · rw [validateServiceForm_keys]
      simp [validateServiceName_empty hv, hcat, hdesc, hemail, hcity, hp]
    · rw [validateServiceForm_keys]
      simp [validateCategory_empty toLowerCase hv, hname, hdesc, hemail, hcity, hp]
    · rw [validateServiceForm_keys]
      simp [validateDescription_empty hv, hname, hcat, hemail, hcity, hp]
    · rw [validateServiceForm_keys]
      simp [validateEmail_empty hv, hname, hcat, hdesc, hcity, hp]
    · rw [validateServiceForm_keys]
      simp [validateCity_empty hv, hname, hcat, hdesc, hemail, hp]

/-- C3 at a concrete form: every hypothesis holds for `sampleForm`. -/
theorem validateServiceForm_required_fields_witness :
    (validateServiceForm toLowerCaseAscii sampleForm).errors = [] ∧
    ∀ v : Option JsString, FieldEmpty v →
      (validateServiceForm toLowerCaseAscii { sampleForm with name := v }).errors.keys =
        ["name"] ∧
      (validateServiceForm toLowerCaseAscii { sampleForm with category := v }).errors.keys =
        ["category"] ∧
      (validateServiceForm toLowerCaseAscii { sampleForm with description := v }).errors.keys =
        ["description"] ∧
      (validateServiceForm toLowerCaseAscii { sampleForm with email := v }).errors.keys =
        ["email"] ∧
      (validateServiceForm toLowerCaseAscii { sampleForm with city := v }).errors.keys =
        ["city"] :=
  validateServiceForm_required_fields toLowerCaseAscii sampleForm (by decide) (by decide)
    (by decide) (by decide) (by decide) (Or.inr (by decide))

/-- C4: `validateServiceForm(form).isValid` is true exactly when the error map
has no keys, and that is exactly when the name, category, description, email
and city validators all accept and the phone is empty or accepted by
`validatePhone`. -/
theorem validateServiceForm_isValid_iff (toLowerCase : JsString → JsString)
    (form : ServiceForm) :
    ((validateServiceForm toLowerCase form).isValid = true ↔
      (validateServiceForm toLowerCase form).errors.keys = []) ∧
    ((validateServiceForm toLowerCase form).errors.keys = [] ↔
      (validateServiceName form.name).isValid = true ∧
      validateCategory toLowerCase form.category = true ∧
      (validateDescription form.description).isValid = true ∧
      validateEmail form.email = true ∧
      (validateCity form.city).isValid = true ∧
      (FieldEmpty form.phone ∨ validatePhone form.phone = true)) := by
  constructor
  · have : (validateServiceForm toLowerCase form).isValid =
        ((validateServiceForm toLowerCase form).errors.keys.length == 0) := rfl
    rw [this]
    simp [List.length_eq_zero]
  · rw [validateServiceForm_keys, ← phone_check_eq_false_iff]
    cases (validateServiceName form.name).isValid <;>
    cases validateCategory toLowerCase form.category <;>
    cases (validateDescription form.description).isValid <;>
    cases (truthy form.phone && !validatePhone form.phone) <;>
    cases validateEmail form.email <;>
    cases (validateCity form.city).isValid <;> simp

/-! ## Filtering and text search -/

theorem includes_iff (s t : JsString) : includes s t = true ↔ t <:+: s := by
  unfold includes
  rw [List.any_eq_true, List.infix_iff_prefix_suffix]
  constructor
  · rintro ⟨u, hu, hp⟩
    exact ⟨u, List.isPrefixOf_iff_prefix.mp hp, (List.mem_tails _ _).mp hu⟩
  · rintro ⟨u, hp, hu⟩
    exact ⟨u, (List.mem_tails _ _).mpr hu, List.isPrefixOf_iff_prefix.mpr hp⟩

/-- The inlined text predicate of the search paths decides `TextMatch`. -/
theorem text_predicate_iff (toLowerCase : JsString → JsString) (term : JsString)
    (s : Listing) :
    (includes (toLowerCase s.name) (toLowerCase term) ||
      includes (toLowerCase s.description) (toLowerCase term) ||
      includes (toLowerCase s.category) (toLowerCase term) ||
      includes (toLowerCase s.city) (toLowerCase term)) = true ↔
    TextMatch toLowerCase term s := by
  simp only [Bool.or_eq_true, includes_iff, TextMatch, or_assoc]

theorem filterStage_fst (toLowerCase : JsString → JsString) (st : FilterState) :
    (useServicesWithFilters.filterStage toLowerCase st).1 =
      st.services.filter (fun s => decide (Visible toLowerCase st s)) := by
  have hvis : ∀ s, Visible toLowerCase st s ↔
      (st.searchTerm.isEmpty = false →
        (includes (toLowerCase s.name) (toLowerCase st.searchTerm) ||
          includes (toLowerCase s.description) (toLowerCase st.searchTerm) ||
          includes (toLowerCase s.category) (toLowerCase st.searchTerm) ||
          includes (toLowerCase s.city) (toLowerCase st.searchTerm)) = true) ∧
      (st.selectedCategory ≠ js "All" → s.category = st.selectedCategory) ∧
      (st.selectedCity ≠ js "All" → s.city = st.selectedCity) ∧
      (st.minRating > 0 → s.rating ≥ st.minRating) := by
    intro s
    rw [text_predicate_iff]
    have he : st.searchTerm.isEmpty = false ↔ ¬ st.searchTerm = [] := by
      rw [← List.isEmpty_iff, Bool.not_eq_true]
    unfold Visible
    rw [he]
    generalize TextMatch toLowerCase st.searchTerm s = T
    tauto
  cases c1 : st.searchTerm.isEmpty <;>
  by_cases c2 : st.selectedCategory = js "All" <;>
  by_cases c3 : st.selectedCity = js "All" <;>
  by_cases c4 : st.minRating > 0 <;>
  simp only [useServicesWithFilters.filterStage, c1, c2, c3, c4, Bool.not_true, Bool.not_false,
    Bool.false_eq_true, if_true, if_false, ne_eq, not_true_eq_false, not_false_eq_true,
    List.filter_filter] <;>
  first
    | (apply List.filter_congr
       intro s _
       rw [Bool.eq_iff_iff]
       simp only [decide_eq_true_eq, Bool.and_eq_true, beq_iff_eq]
       rw [hvis s]
       simp only [c1, c2, c3, c4, ne_eq, not_true_eq_false, not_false_eq_true, true_implies,
         false_implies, and_true, true_and, Bool.false_eq_true, Bool.true_eq_false]
       try tauto)
    | (symm
       rw [List.filter_eq_self]
       intro s _
       rw [decide_eq_true_eq, hvis s]
       simp [c1, c2, c3, c4])

theorem jsSort_perm {α : Type} (comparefn : α → α → ℚ) (xs : List α) :
    (jsSort comparefn xs).Perm xs :=
  List.perm_insertionSort _ xs

theorem applyFilters_filteredServices (toLowerCase : JsString → JsString)
    (localeCompare : JsString → JsString → ℚ) (st : FilterState) :
    (useServicesWithFilters.applyFilters toLowerCase localeCompare st).filteredServices =
      jsSort (compareBy localeCompare st.sortBy)
        (st.services.filter (fun s => decide (Visible toLowerCase st s))) := by
  rw [← filterStage_fst]
  rfl

/-- C5: the visible subset computed by `applyFilters` consists of exactly the
listings of the source collection that satisfy every active criterion (text
search over name, description, category and city; exact category; exact city;
rating at least the minimum). -/
theorem applyFilters_visible_subset (toLowerCase : JsString → JsString)
    (localeCompare : JsString → JsString → ℚ) (st : FilterState) :
    ((useServicesWithFilters.applyFilters toLowerCase localeCompare st).filteredServices).Perm
      (st.services.filter (fun s => decide (Visible toLowerCase st s))) ∧
    ∀ s : Listing,
      s ∈ (useServicesWithFilters.applyFilters toLowerCase localeCompare st).filteredServices ↔
        s ∈ st.services ∧ Visible toLowerCase st s := by
  rw [applyFilters_filteredServices]
  refine ⟨jsSort_perm _ _, ?_⟩
  intro s
  rw [(jsSort_perm _ _).mem_iff, List.mem_filter, decide_eq_true_eq]

/-- C6: for a term that is not blank, `serviceService.searchServices`, the
search of `useServiceSearch` and `App.filteredServices` with category `All`
each return exactly the listings, in source order, one of whose lower-cased
name, description, category or city contains the lower-cased term. -/
theorem text_search_exact (toLowerCase : JsString → JsString) (services : List Listing)
    (term : JsString) (hterm : trim term ≠ []) :
    serviceService.searchServices toLowerCase services term =
      services.filter (fun s => decide (TextMatch toLowerCase term s)) ∧
    useServiceSearch.search toLowerCase services term =
      services.filter (fun s => decide (TextMatch toLowerCase term s)) ∧
    App.filteredServices toLowerCase services term (js "All") =
      services.filter (fun s => decide (TextMatch toLowerCase term s)) := by
  have hpred : ∀ s : Listing,
      (includes (toLowerCase s.name) (toLowerCase term) ||
        includes (toLowerCase s.description) (toLowerCase term) ||
        includes (toLowerCase s.category) (toLowerCase term) ||
        includes (toLowerCase s.city) (toLowerCase term)) =
      decide (TextMatch toLowerCase term s) := by
    intro s
    rw [Bool.eq_iff_iff, decide_eq_true_eq]
    exact text_predicate_iff toLowerCase term s
  have hsearch : serviceService.searchServices toLowerCase services term =
      services.filter (fun s => decide (TextMatch toLowerCase term s)) := by
    unfold serviceService.searchServices
    exact List.filter_congr (fun s _ => hpred s)
  refine ⟨hsearch, ?_, ?_⟩
  · have hne : (trim term).isEmpty = false := by
      rw [← Bool.not_eq_true, List.isEmpty_iff]
      exact hterm
    unfold useServiceSearch.search
    rw [hne]
    exact List.filter_congr (fun s _ => hpred s)
  · unfold App.filteredServices
    apply List.filter_congr
    intro s _
    rw [← hpred s]
    simp only [beq_self_eq_true, Bool.true_or, Bool.and_true]
    cases includes (toLowerCase s.name) (toLowerCase term) <;>
    cases includes (toLowerCase s.description) (toLowerCase term) <;>
    cases includes (toLowerCase s.category) (toLowerCase term) <;>
    cases includes (toLowerCase s.city) (toLowerCase term) <;> rfl

/-- C6 at the term `plumb` over `sampleServices`. -/
theorem text_search_exact_witness :
    trim (js "plumb") ≠ [] ∧
    serviceService.searchServices toLowerCaseAscii sampleServices (js "plumb") =
      sampleServices.filter (fun s => decide (TextMatch toLowerCaseAscii (js "plumb") s)) ∧
    useServiceSearch.search toLowerCaseAscii sampleServices (js "plumb") =
      sampleServices.filter (fun s => decide (TextMatch toLowerCaseAscii (js "plumb") s)) ∧
    App.filteredServices toLowerCaseAscii sampleServices (js "plumb") (js "All") =
      sampleServices.filter (fun s => decide (TextMatch toLowerCaseAscii (js "plumb") s)) :=
  ⟨by decide, text_search_exact toLowerCaseAscii sampleServices (js "plumb") (by decide)⟩

/-! ## Sorting by rating -/

/-- A comparator that orders by a total, transitive relation on a numeric key
makes `jsSort` return the keys in that order. -/
theorem jsSort_sorted_key {α : Type} (comparefn : α → α → ℚ) (key : α → ℚ)
    (R : ℚ → ℚ → Prop) (htotal : ∀ x y, R x y ∨ R y x) (htrans : ∀ x y z, R x y → R y z → R x z)
    (h : ∀ a b, comparefn a b ≤ 0 ↔ R (key a) (key b)) (xs : List α) :
    ((jsSort comparefn xs).map key).Sorted R := by
  haveI : IsTotal α (fun a b => comparefn a b ≤ 0) :=
    ⟨fun a b => by
      simp only [h]
      exact htotal _ _⟩
  haveI : IsTrans α (fun a b => comparefn a b ≤ 0) :=
    ⟨fun a b c hab hbc => by
      simp only [h] at hab hbc ⊢
      exact htrans _ _ _ hab hbc⟩
  have hs : (jsSort comparefn xs).Sorted (fun a b => comparefn a b ≤ 0) :=
    List.sorted_insertionSort _ xs
  unfold List.Sorted
  rw [List.pairwise_map]
  exact List.Pairwise.imp (fun hab => (h _ _).mp hab) hs

theorem compareBy_rating_high (localeCompare : JsString → JsString → ℚ) (a b : Listing) :
    compareBy localeCompare "rating-high" a b = b.rating - a.rating := by
  simp [compareBy]

theorem compareBy_rating_low (localeCompare : JsString → JsString → ℚ) (a b : Listing) :
    compareBy localeCompare "rating-low" a b = a.rating - b.rating := by
  simp [compareBy]

theorem jsSort_rating_high (localeCompare : JsString → JsString → ℚ) (xs : List Listing) :
    ((jsSort (compareBy localeCompare "rating-high") xs).map (fun s => s.rating)).Sorted
      (fun x y => x ≥ y) :=
  jsSort_sorted_key _ _ _ (fun x y => le_total y x) (fun _ _ _ hxy hyz => le_trans hyz hxy)
    (fun a b => by rw [compareBy_rating_high, sub_nonpos]) xs

theorem jsSort_rating_low (localeCompare : JsString → JsString → ℚ) (xs : List Listing) :
    ((jsSort (compareBy localeCompare "rating-low") xs).map (fun s => s.rating)).Sorted
      (fun x y => x ≤ y) :=
  jsSort_sorted_key _ _ _ (fun x y => le_total x y) (fun _ _ _ hxy hyz => le_trans hxy hyz)
    (fun a b => by rw [compareBy_rating_low, sub_nonpos]) xs

theorem sampleServices_rating_high (localeCompare : JsString → JsString → ℚ) :
    jsSort (compareBy localeCompare "rating-high") sampleServices =
      [sampleServices.get ⟨0, by decide⟩, sampleServices.get ⟨2, by decide⟩,
        sampleServices.get ⟨1, by decide⟩] := by
  simp only [jsSort, sampleServices, List.insertionSort, List.orderedInsert,
    compareBy_rating_high, List.get]
  norm_num

/-- C7: with sort key `rating-high` the output of `applyFilters` and of
`ServiceList` is in non-increasing order of rating, with `rating-low` in
non-decreasing order; ratings `[5, 3, 4]` come out as `[5, 4, 3]` under
`rating-high`. -/
theorem rating_sort_order (toLowerCase : JsString → JsString)
    (localeCompare : JsString → JsString → ℚ) :
    (∀ st : FilterState,
      ((useServicesWithFilters.applyFilters toLowerCase localeCompare
        { st with sortBy := "rating-high" }).filteredServices.map (fun s => s.rating)).Sorted
        (fun x y => x ≥ y)) ∧
    (∀ services : List Listing,
      ((ServiceList.sortedServices localeCompare services "rating-high").map
        (fun s => s.rating)).Sorted (fun x y => x ≥ y)) ∧
    (∀ st : FilterState,
      ((useServicesWithFilters.applyFilters toLowerCase localeCompare
        { st with sortBy := "rating-low" }).filteredServices.map (fun s => s.rating)).Sorted
        (fun x y => x ≤ y)) ∧
    (∀ services : List Listing,
      ((ServiceList.sortedServices localeCompare services "rating-low").map
        (fun s => s.rating)).Sorted (fun x y => x ≤ y)) ∧
    sampleServices.map (fun s => s.rating) = [5, 3, 4] ∧
    (useServicesWithFilters.applyFilters toLowerCase localeCompare
      (sampleState "rating-high")).filteredServices.map (fun s => s.rating) = [5, 4, 3] ∧
    (ServiceList.sortedServices localeCompare sampleServices "rating-high").map
      (fun s => s.rating) = [5, 4, 3] := by
  refine ⟨?_, ?_, ?_, ?_, ?_, ?_, ?_⟩
  · intro st
    rw [applyFilters_filteredServices]
    exact jsSort_rating_high localeCompare _
  · intro services
    exact jsSort_rating_high localeCompare services
  · intro st
    rw [applyFilters_filteredServices]
    exact jsSort_rating_low localeCompare _
  · intro services
    exact jsSort_rating_low localeCompare services
  · simp [sampleServices]
  · rw [applyFilters_filteredServices]
    have hall : (sampleState "rating-high").services.filter
        (fun s => decide (Visible toLowerCase (sampleState "rating-high") s)) =
        sampleServices := by
      show List.filter _ sampleServices = sampleServices
      rw [List.filter_eq_self]
      intro s _
      simp [Visible, sampleState]
    rw [hall]
    show (jsSort (compareBy localeCompare "rating-high") sampleServices).map _ = _
    rw [sampleServices_rating_high]
    simp [sampleServices]
  · show (jsSort (compareBy localeCompare "rating-high") sampleServices).map _ = _
    rw [sampleServices_rating_high]
    simp [sampleServices]

/-! ## Pagination -/

namespace useServicePagination

/-- The page count is the integer `k` with `(k - 1) * p < n ≤ k * p`. -/
theorem totalPages_eq_iff {α : Type} (services : List α) (p : Nat) (hp : 1 ≤ p) (k : Int) :
    totalPages services p = k ↔
      (k - 1) * (p : Int) < (services.length : Int) ∧
      (services.length : Int) ≤ k * (p : Int) := by
  have hpos : (0 : ℚ) < (p : ℚ) := by exact_mod_cast hp
  unfold totalPages
  rw [Int.ceil_eq_iff, lt_div_iff₀ hpos, div_le_iff₀ hpos]
  constructor
  · rintro ⟨h1, h2⟩
    exact ⟨by exact_mod_cast h1, by exact_mod_cast h2⟩
  · rintro ⟨h1, h2⟩
    exact ⟨by exact_mod_cast h1, by exact_mod_cast h2⟩

theorem totalPages_nil {α : Type} (p : Nat) : totalPages ([] : List α) p = 0 := by
  simp [totalPages]

theorem totalPages_twenty_nine {α : Type} (services : List α) (h : services.length = 20) :
    totalPages services 9 = 3 := by
  rw [totalPages_eq_iff services 9 (by decide), h]
  decide

theorem totalPages_replicate : totalPages (List.replicate 20 (0 : Nat)) 9 = 3 :=
  totalPages_twenty_nine _ (by decide)

end useServicePagination

/-- C8: for a page size `p ≥ 1` the page count of `n` listings is the ceiling
of `n / p`, the least integer `k` with `n ≤ k * p`; it is `0` for the empty
list and `3` for 20 listings with page size 9. -/
theorem totalPages_is_ceiling {α : Type} (services : List α) (p : Nat) (hp : 1 ≤ p) :
    useServicePagination.totalPages services p = ⌈((services.length : ℚ) / (p : ℚ))⌉ ∧
    (services.length : Int) ≤ useServicePagination.totalPages services p * (p : Int) ∧
    (∀ k : Int, (services.length : Int) ≤ k * (p : Int) →
      useServicePagination.totalPages services p ≤ k) ∧
    (services = [] → useServicePagination.totalPages services p = 0) ∧
    (services.length = 20 → p = 9 → useServicePagination.totalPages services p = 3) := by
  have hT := (useServicePagination.totalPages_eq_iff services p hp
    (useServicePagination.totalPages services p)).mp rfl
  refine ⟨rfl, hT.2, ?_, ?_, ?_⟩
  · intro k hk
    have hpos : (0 : Int) < (p : Int) := by exact_mod_cast hp
    have h1 : (useServicePagination.totalPages services p - 1) * (p : Int) < k * (p : Int) :=
      lt_of_lt_of_le hT.1 hk
    have h2 := lt_of_mul_lt_mul_right h1 hpos.le
    omega
  · rintro rfl
    exact useServicePagination.totalPages_nil p
  · rintro h rfl
    exact useServicePagination.totalPages_twenty_nine services h

/-- C8 at 20 listings with page size 9. -/
theorem totalPages_is_ceiling_witness :
    (1 ≤ 9) ∧
    useServicePagination.totalPages (List.replicate 20 (0 : Nat)) 9 =
      ⌈(((List.replicate 20 (0 : Nat)).length : ℚ) / ((9 : Nat) : ℚ))⌉ ∧
    ((List.replicate 20 (0 : Nat)).length : Int) ≤
      useServicePagination.totalPages (List.replicate 20 (0 : Nat)) 9 * ((9 : Nat) : Int) ∧
    (∀ k : Int, ((List.replicate 20 (0 : Nat)).length : Int) ≤ k * ((9 : Nat) : Int) →
      useServicePagination.totalPages (List.replicate 20 (0 : Nat)) 9 ≤ k) ∧
    (List.replicate 20 (0 : Nat) = [] →
      useServicePagination.totalPages (List.replicate 20 (0 : Nat)) 9 = 0) ∧
    ((List.replicate 20 (0 : Nat)).length = 20 → 9 = 9 →
      useServicePagination.totalPages (List.replicate 20 (0 : Nat)) 9 = 3) :=
  ⟨by decide, totalPages_is_ceiling (List.replicate 20 (0 : Nat)) 9 (by decide)⟩

/-- C9: when there is at least one page, `goToPage(q)` stores `q` if
`1 ≤ q ≤ totalPages`, `1` if `q < 1`, and `totalPages` if `q > totalPages`;
with 20 listings and page size 9, `goToPage(5)` stores 3. -/
theorem goToPage_clamps {α : Type} (services : List α) (p : Nat) (currentPage q : Int)
    (hT : 1 ≤ useServicePagination.totalPages services p) :
    (1 ≤ q → q ≤ useServicePagination.totalPages services p →
      useServicePagination.step services p currentPage (.goToPage q) = q) ∧
    (q < 1 → useServicePagination.step services p currentPage (.goToPage q) = 1) ∧
    (q > useServicePagination.totalPages services p →
      useServicePagination.step services p currentPage (.goToPage q) =
        useServicePagination.totalPages services p) ∧
    (services.length = 20 → p = 9 →
      useServicePagination.step services p currentPage (.goToPage 5) = 3) := by
  simp only [useServicePagination.step, useServicePagination.goToPage]
  refine ⟨?_, ?_, ?_, ?_⟩
  · intro h1 h2
    omega
  · intro h1
    omega
  · intro h1
    omega
  · rintro h rfl
    rw [useServicePagination.totalPages_twenty_nine services h]
    decide

/-- C9 at 20 listings, page size 9 and requested page 5. -/
theorem goToPage_clamps_witness :
    useServicePagination.step (List.replicate 20 (0 : Nat)) 9 1 (.goToPage 5) = 3 :=
  (goToPage_clamps (List.replicate 20 (0 : Nat)) 9 1 5
    (by rw [useServicePagination.totalPages_replicate]; decide)).2.2.2 (by decide) rfl

/-- When there is at least one page, every sequence of navigation calls keeps
`currentPage` within `[1, totalPages]`. -/
theorem run_in_range {α : Type} (services : List α) (p : Nat)
    (hT : 1 ≤ useServicePagination.totalPages services p)
    (actions : List useServicePagination.Action) :
    1 ≤ useServicePagination.run services p actions ∧
    useServicePagination.run services p actions ≤
      useServicePagination.totalPages services p := by
  unfold useServicePagination.run
  suffices h : ∀ cur : Int, 1 ≤ cur ∧ cur ≤ useServicePagination.totalPages services p →
      1 ≤ actions.foldl (useServicePagination.step services p) cur ∧
      actions.foldl (useServicePagination.step services p) cur ≤
        useServicePagination.totalPages services p from h 1 ⟨le_refl 1, hT⟩
  induction actions with
  | nil => intro cur h; exact h
  | cons a rest ih =>
    intro cur hcur
    rw [List.foldl_cons]
    apply ih
    cases a <;>
    simp only [useServicePagination.step, useServicePagination.nextPage,
      useServicePagination.previousPage, useServicePagination.goToPage,
      useServicePagination.reset] <;> omega

/-- C10: on the empty list `totalPages` is `0`, and one call of `nextPage`
from the initial page stores `Math.min(2, 0) = 0`, below the lower bound `1`
that `goToPage` and `previousPage` enforce on the same list. -/
theorem nextPage_empty_list_below_one :
    useServicePagination.totalPages ([] : List Listing) 9 = 0 ∧
    useServicePagination.run ([] : List Listing) 9 [.nextPage] = 0 ∧
    ¬ (1 ≤ useServicePagination.run ([] : List Listing) 9 [.nextPage]) ∧
    useServicePagination.run ([] : List Listing) 9 [.goToPage 2] = 1 ∧
    useServicePagination.run ([] : List Listing) 9 [.previousPage] = 1 := by
  simp only [useServicePagination.run, List.foldl_cons, List.foldl_nil,
    useServicePagination.step, useServicePagination.nextPage, useServicePagination.goToPage,
    useServicePagination.previousPage, useServicePagination.totalPages_nil]
  decide

/-! ## Page reset on a changed collection -/

/-- A render with a collection of another length resets the page to 1. -/
theorem rerender_resets_of_length_ne {α : Type} (services : List α)
    (h : useServicePagination.Hook) (hlen : services.length ≠ h.effectDep) :
    (useServicePagination.rerender services h).currentPage = 1 := by
  simp [useServicePagination.rerender, hlen]

/-- C11: the resetting effect depends on `services.length` only. From page 3
of twenty listings, a render with a different collection of twenty listings
leaves `currentPage` at 3, while a render with nineteen listings resets it. -/
theorem rerender_same_length_keeps_page :
    List.replicate 20 (0 : Nat) ≠ List.replicate 20 (1 : Nat) ∧
    (useServicePagination.navigate (List.replicate 20 (0 : Nat)) 9 (.goToPage 3)
      (useServicePagination.mount (List.replicate 20 (0 : Nat)))).currentPage = 3 ∧
    (useServicePagination.rerender (List.replicate 20 (1 : Nat))
      (useServicePagination.navigate (List.replicate 20 (0 : Nat)) 9 (.goToPage 3)
        (useServicePagination.mount (List.replicate 20 (0 : Nat))))).currentPage = 3 ∧
    (useServicePagination.rerender (List.replicate 19 (1 : Nat))
      (useServicePagination.navigate (List.replicate 20 (0 : Nat)) 9 (.goToPage 3)
        (useServicePagination.mount (List.replicate 20 (0 : Nat))))).currentPage = 1 := by
  have hnav : useServicePagination.navigate (List.replicate 20 (0 : Nat)) 9 (.goToPage 3)
      (useServicePagination.mount (List.replicate 20 (0 : Nat))) =
      { currentPage := 3, effectDep := 20 } := by
    simp only [useServicePagination.navigate, useServicePagination.mount,
      useServicePagination.step, useServicePagination.goToPage,
      useServicePagination.totalPages_replicate]
    decide
  rw [hnav]
  decide

/-! ## Auth gating -/

/-- C12: with no authenticated user, `handleContact` and `handleRate` set
`authModalOpen` to true, leave every other state variable as it was, and
perform no effect: no alert and no backend operation. -/
theorem gated_actions_open_auth_modal (service : Listing) (st : App.State) :
    App.handleContact none service st = ({ st with authModalOpen := true }, []) ∧
    App.handleRate none service st = ({ st with authModalOpen := true }, []) ∧
    (App.handleContact none service st).1.authModalOpen = true ∧
    (App.handleRate none service st).1.authModalOpen = true ∧
    (App.handleContact none service st).1.rateModalOpen = st.rateModalOpen ∧
    (App.handleRate none service st).1.rateModalOpen = st.rateModalOpen ∧
    (App.handleContact none service st).1.selectedService = st.selectedService ∧
    (App.handleRate none service st).1.selectedService = st.selectedService ∧
    (App.handleContact none service st).1.addServiceOpen = st.addServiceOpen ∧
    (App.handleRate none service st).1.addServiceOpen = st.addServiceOpen ∧
    (App.handleContact none service st).1.services = st.services ∧
    (App.handleRate none service st).1.services = st.services ∧
    (App.handleContact none service st).2 = [] ∧
    (App.handleRate none service st).2 = [] := by
  simp [App.handleContact, App.handleRate]

/-! ## Password and service name -/

/-- C18: `validatePassword(p).isValid` is true exactly when the length of `p`
is between 6 and 128; a missing or empty password gets `Password is required`,
a shorter one `Password must be at least 6 characters`, a longer one
`Password is too long`. -/
theorem validatePassword_iff_length :
    (∀ p : JsString,
      (validatePassword (some p)).isValid = true ↔ 6 ≤ p.length ∧ p.length ≤ 128) ∧
    validatePassword none = { isValid := false, message := "Password is required" } ∧
    validatePassword (some []) = { isValid := false, message := "Password is required" } ∧
    (∀ p : JsString, p ≠ [] → p.length < 6 →
      validatePassword (some p) =
        { isValid := false, message := "Password must be at least 6 characters" }) ∧
    (∀ p : JsString, p.length > 128 →
      validatePassword (some p) = { isValid := false, message := "Password is too long" }) := by
  have hne : ∀ p : JsString, p ≠ [] → p.isEmpty = false := by
    intro p hp
    rw [← Bool.not_eq_true, List.isEmpty_iff]
    exact hp
  refine ⟨?_, rfl, rfl, ?_, ?_⟩
  · intro p
    by_cases hp : p = []
    · subst hp
      simp [validatePassword]
    · simp only [validatePassword, hne p hp, Bool.false_eq_true, if_false]
      split_ifs with h1 h2 <;> simp <;> omega
  · intro p hp hlen
    simp only [validatePassword, hne p hp, Bool.false_eq_true, if_false, hlen, if_true]
  · intro p hlen
    have hp : p ≠ [] := by
      rintro rfl
      simp at hlen
    have h6 : ¬ p.length < 6 := by omega
    simp only [validatePassword, hne p hp, Bool.false_eq_true, if_false, h6, hlen, if_true]

theorem trim_eq_nil_of_all_space (n : JsString) (h : ∀ c ∈ n, isWhiteSpace c = true) :
    trim n = [] := by
  unfold trim
  rw [List.dropWhile_eq_nil_iff.mpr h]
  exact List.rdropWhile_nil _

theorem trim_nil : trim [] = [] := trim_eq_nil_of_all_space [] (by simp)

/-- C19: `validateServiceName(n).isValid` is true exactly when the trimmed
name has length between 3 and 100; a name of whitespace only is rejected. -/
theorem validateServiceName_iff_trimmed_length :
    (∀ n : JsString,
      (validateServiceName (some n)).isValid = true ↔
        3 ≤ (trim n).length ∧ (trim n).length ≤ 100) ∧
    (∀ n : JsString, (∀ c ∈ n, isWhiteSpace c = true) →
      (validateServiceName (some n)).isValid = false) := by
  have hmain : ∀ n : JsString,
      (validateServiceName (some n)).isValid = true ↔
        3 ≤ (trim n).length ∧ (trim n).length ≤ 100 := by
    intro n
    by_cases hn : n = []
    · subst hn
      simp [validateServiceName, trim_nil]
    · have he : n.isEmpty = false := by
        rw [← Bool.not_eq_true, List.isEmpty_iff]
        exact hn
      simp only [validateServiceName, he, Bool.false_eq_true, if_false]
      split_ifs with h1 h2 <;> simp <;> omega
  refine ⟨hmain, ?_⟩
  intro n hall
  rw [← Bool.not_eq_true, hmain, trim_eq_nil_of_all_space n hall]
  simp

/-! ## Debounced search -/

namespace useServiceSearch

/-- While calls keep arriving less than 300 units apart, each with a new
term, the pending timeout is replaced and never fires. -/
theorem run_quick_changes (rest : List (Nat × JsString)) :
    ∀ (t : Nat) (s : JsString) (h : Hook), h.searchTerm = s → h.timer = some (t + 300, s) →
      List.Chain QuickChanges (t, s) rest →
      run h rest =
        { h with
          searchTerm := (((t, s) :: rest).getLast (List.cons_ne_nil _ _)).2
          timer := some ((((t, s) :: rest).getLast (List.cons_ne_nil _ _)).1 + 300,
            (((t, s) :: rest).getLast (List.cons_ne_nil _ _)).2) } := by
  induction rest with
  | nil =>
    intro t s h hs ht _
    cases h
    simp only [run, List.foldl_nil, List.getLast_singleton] at *
    simp [hs, ht]
  | cons c rest ih =>
    intro t s h hs ht hchain
    obtain ⟨t', s'⟩ := c
    rw [List.chain_cons] at hchain
    obtain ⟨⟨_, hlt, hne⟩, hrest⟩ := hchain
    simp only at hlt hne
    have hstep : setSearchTerm t' s' h =
        { h with searchTerm := s', timer := some (t' + 300, s') } := by
      have hnot : ¬ (t + 300 ≤ t') := by omega
      have hadv : advance t' h = h := by
        simp [advance, ht, hnot]
      have hne' : ¬ (s' = h.searchTerm) := by
        rw [hs]
        exact fun e => hne e.symm
      simp only [setSearchTerm, hadv, hne', if_false]
    have hrun : run h ((t', s') :: rest) = run (setSearchTerm t' s' h) rest := rfl
    rw [hrun, hstep, ih t' s' _ rfl rfl hrest]
    rw [List.getLast_cons (List.cons_ne_nil _ _)]

end useServiceSearch

/-- C13, as amended: in a sequence of `setSearchTerm` calls less than 300 time
units apart in which every call changes the term, `setDebouncedTerm` is called
exactly once, 300 units after the last call and with the last term; the search
is recomputed then, once, when that term differs from the debounced term
before the sequence, and not at all when it equals it. -/
theorem debounce_fires_once_after_last (s0 d0 : JsString) (t : Nat) (s : JsString)
    (rest : List (Nat × JsString)) (T : Nat)
    (hfirst : s ≠ s0)
    (hquick : List.Chain QuickChanges (t, s) rest)
    (hT : (((t, s) :: rest).getLast (List.cons_ne_nil _ _)).1 + 300 ≤ T) :
    (useServiceSearch.advance T
      (useServiceSearch.run (useServiceSearch.idle s0 d0) ((t, s) :: rest))).debounceLog =
      [((((t, s) :: rest).getLast (List.cons_ne_nil _ _)).1 + 300,
        (((t, s) :: rest).getLast (List.cons_ne_nil _ _)).2)] ∧
    (useServiceSearch.advance T
      (useServiceSearch.run (useServiceSearch.idle s0 d0) ((t, s) :: rest))).debouncedTerm =
      (((t, s) :: rest).getLast (List.cons_ne_nil _ _)).2 ∧
    (useServiceSearch.advance T
      (useServiceSearch.run (useServiceSearch.idle s0 d0) ((t, s) :: rest))).searchLog =
      (if (((t, s) :: rest).getLast (List.cons_ne_nil _ _)).2 ≠ d0 then
        [((((t, s) :: rest).getLast (List.cons_ne_nil _ _)).1 + 300,
          (((t, s) :: rest).getLast (List.cons_ne_nil _ _)).2)]
      else []) := by
  have hfirst' : ¬ (s = s0) := hfirst
  have hstart : useServiceSearch.run (useServiceSearch.idle s0 d0) ((t, s) :: rest) =
      useServiceSearch.run
        { useServiceSearch.idle s0 d0 with searchTerm := s, timer := some (t + 300, s) }
        rest := by
    show useServiceSearch.run
      (useServiceSearch.setSearchTerm t s (useServiceSearch.idle s0 d0)) rest = _
    congr 1
    simp [useServiceSearch.setSearchTerm, useServiceSearch.advance, useServiceSearch.idle,
      hfirst']
  rw [hstart, useServiceSearch.run_quick_changes rest t s _ rfl rfl hquick]
  generalize ((t, s) :: rest).getLast (List.cons_ne_nil _ _) = last at hT ⊢
  simp only [useServiceSearch.advance, hT, if_true, useServiceSearch.fire,
    useServiceSearch.idle, List.nil_append]
  simp

/-- C13 amended, at five keystrokes spelling `plumb`. -/
theorem debounce_fires_once_after_last_witness :
    (useServiceSearch.advance 1000
      (useServiceSearch.run (useServiceSearch.idle (js "") (js ""))
        ((0, js "p") :: sampleKeystrokes))).debounceLog = [(800, js "plumb")] ∧
    (useServiceSearch.advance 1000
      (useServiceSearch.run (useServiceSearch.idle (js "") (js ""))
        ((0, js "p") :: sampleKeystrokes))).debouncedTerm = js "plumb" ∧
    (useServiceSearch.advance 1000
      (useServiceSearch.run (useServiceSearch.idle (js "") (js ""))
        ((0, js "p") :: sampleKeystrokes))).searchLog = [(800, js "plumb")] :=
  debounce_fires_once_after_last (js "") (js "") 0 (js "p") sampleKeystrokes 1000
    (by decide)
    (by
      simp only [sampleKeystrokes, List.chain_cons, QuickChanges, List.Chain.nil, and_true]
      decide)
    (by decide)

/-- C13 as stated fails: typing `a` and deleting it 100 units later ends with
one call of `setDebouncedTerm` at time 400 but no recomputation of the search,
since the debounced term does not change; and calling `setSearchTerm` twice
with the same term `a`, 100 units apart, fires at time 300, that is 200 units
after the last call. -/
theorem debounce_not_always_once :
    (useServiceSearch.advance 1000
      (useServiceSearch.run (useServiceSearch.idle (js "") (js ""))
        [(0, js "a"), (100, js "")])).debounceLog = [(400, js "")] ∧
    (useServiceSearch.advance 1000
      (useServiceSearch.run (useServiceSearch.idle (js "") (js ""))
        [(0, js "a"), (100, js "")])).searchLog = [] ∧
    (useServiceSearch.advance 1000
      (useServiceSearch.run (useServiceSearch.idle (js "") (js ""))
        [(0, js "a"), (100, js "a")])).debounceLog = [(300, js "a")] := by
  decide

/-! ## Stored rating and category -/

/-- A rating below 1 or above 5 makes `updateRating` fail before any write. -/
theorem updateRating_out_of_range (serviceId : Option JsString) (newRating : ℚ)
    (h : newRating < 1 ∨ newRating > 5) :
    serviceService.updateRating serviceId newRating = .error "Failed to update rating" := by
  unfold serviceService.updateRating
  split_ifs <;> rfl

/-- A rating that `updateRating` writes lies in `[1, 5]`. -/
theorem updateRating_written_in_range (serviceId : Option JsString) (newRating : ℚ)
    (u : RatingUpdate) (h : serviceService.updateRating serviceId newRating = .ok u) :
    1 ≤ u.rating ∧ u.rating ≤ 5 := by
  unfold serviceService.updateRating at h
  split_ifs at h with h1 h2
  simp only [Except.ok.injEq] at h
  subst h
  simp only [not_or, not_lt] at h2
  exact h2

/-- Without a rating field `addService` stores the default rating 5. -/
theorem addService_default_rating (toLowerCase : JsString → JsString)
    (serviceData : ServiceData) (userId : Option JsString) (r : ServiceRecord)
    (hnone : serviceData.rating = none)
    (h : serviceService.addService toLowerCase serviceData userId = .ok r) :
    r.rating = 5 := by
  unfold serviceService.addService at h
  split_ifs at h
  split at h
  · simp only [Except.ok.injEq] at h
    subst h
    simp [hnone]
  · exact absurd h (by simp)

/-- C14: `addService` stores a supplied rating unchecked. For a `serviceData`
with rating 7 the document written has rating 7, outside `[1, 5]`, while
`updateRating` rejects the same value without writing. -/
theorem addService_stores_rating_unchecked (toLowerCase : JsString → JsString) :
    (∃ r : ServiceRecord,
      serviceService.addService toLowerCase sampleDataRatedSeven (some (js "u1")) = .ok r ∧
      r.rating = 7 ∧ ¬ (1 ≤ r.rating ∧ r.rating ≤ 5)) ∧
    serviceService.updateRating (some (js "s1")) 7 = .error "Failed to update rating" := by
  constructor
  · refine ⟨_, rfl, ?_, ?_⟩
    · simp [sampleDataRatedSeven]
    · simp only [sampleDataRatedSeven]
      norm_num
  · exact updateRating_out_of_range _ _ (Or.inr (by norm_num))

theorem validCategories_lower_case :
    ∀ n ∈ validCategories, ∀ c ∈ n, 97 ≤ c ∧ c ≤ 122 := by
  decide

theorem validateCategory_some (toLowerCase : JsString → JsString) (c : JsString) :
    validateCategory toLowerCase (some c) = true ↔ c ≠ [] ∧ toLowerCase c ∈ validCategories := by
  by_cases hc : c = []
  · subst hc
    simp [validateCategory]
  · have he : c.isEmpty = false := by
      rw [← Bool.not_eq_true, List.isEmpty_iff]
      exact hc
    simp only [validateCategory, he, Bool.false_eq_true, if_false, ne_eq, hc,
      not_false_eq_true, true_and]
    exact List.elem_iff

/-- C15: for a form that `validateServiceForm` accepts, submitted by a user
with a non-empty id, `addService` writes a document whose category is one of
the ten fixed names, all of whose characters are the lower-case letters
`a`..`z`. -/
theorem addService_category_valid (toLowerCase : JsString → JsString) (form : ServiceForm)
    (imageUrl uid : JsString) (huid : uid ≠ [])
    (hvalid : (validateServiceForm toLowerCase form).isValid = true) :
    ∃ r : ServiceRecord,
      serviceService.addService toLowerCase (AddServiceModal.serviceData form imageUrl)
        (some uid) = .ok r ∧
      r.category ∈ validCategories ∧ ∀ c ∈ r.category, 97 ≤ c ∧ c ≤ 122 := by
  have hkeys : (validateServiceForm toLowerCase form).errors.keys = [] := by
    have : (validateServiceForm toLowerCase form).isValid =
        ((validateServiceForm toLowerCase form).errors.keys.length == 0) := rfl
    rw [this] at hvalid
    simpa [List.length_eq_zero] using hvalid
  have hcat : validateCategory toLowerCase form.category = true := by
    rw [validateServiceForm_keys] at hkeys
    by_contra hc
    simp [hc] at hkeys
  cases hform : form.category with
  | none =>
    rw [hform] at hcat
    simp [validateCategory] at hcat
  | some c =>
    rw [hform] at hcat
    obtain ⟨_, hmem⟩ := (validateCategory_some toLowerCase c).mp hcat
    have he : uid.isEmpty = false := by
      rw [← Bool.not_eq_true, List.isEmpty_iff]
      exact huid
    have hadd : serviceService.addService toLowerCase
        (AddServiceModal.serviceData form imageUrl) (some uid) =
        .ok
          { name := form.name, description := form.description, phone := form.phone,
            email := form.email, city := form.city, image := some imageUrl, userId := uid,
            rating := 5, category := toLowerCase c, createdAt := .sentinel,
            updatedAt := .sentinel } := by
      simp [serviceService.addService, truthy, he, AddServiceModal.serviceData, hform]
    exact ⟨_, hadd, hmem, validCategories_lower_case _ hmem⟩

/-- C15 at `sampleForm`, whose category was entered as `Plumbing`. -/
theorem addService_category_valid_witness :
    ∃ r : ServiceRecord,
      serviceService.addService toLowerCaseAscii (AddServiceModal.serviceData sampleForm (js ""))
        (some (js "u1")) = .ok r ∧
      r.category ∈ validCategories ∧ ∀ c ∈ r.category, 97 ≤ c ∧ c ≤ 122 :=
  addService_category_valid toLowerCaseAscii sampleForm (js "") (js "u1") (by decide)
    (by decide)

/-- C16 as stated fails: `Plumbing` is not one of the ten names, yet
`validateCategory` accepts it, because it lower-cases its argument first. -/
theorem validateCategory_accepts_capitalised :
    js "Plumbing" ∉ validCategories ∧
    validateCategory toLowerCaseAscii (some (js "Plumbing")) = true := by
  decide

/-- C16, as amended: `validateCategory(c)` is true exactly when `c` is not
empty and its lower-cased form is one of the ten category names; a missing or
empty category is rejected. -/
theorem validateCategory_iff_lowered_member (toLowerCase : JsString → JsString) :
    (∀ c : JsString,
      validateCategory toLowerCase (some c) = true ↔
        c ≠ [] ∧ toLowerCase c ∈ validCategories) ∧
    validateCategory toLowerCase (some []) = false ∧
    validateCategory toLowerCase none = false ∧
    validCategories =
      [js "plumbing", js "electrical", js "carpentry", js "painting", js "cleaning",
        js "gardening", js "landscaping", js "roofing", js "hvac", js "handyman"] :=
  ⟨validateCategory_some toLowerCase, rfl, rfl, rfl⟩

/-! ## City names -/

theorem cityChar_iff (c : Nat) :
    cityChar c = true ↔ CityCharSpec c ∨ isWhiteSpace c = true := by
  have h32 : c = 32 → isWhiteSpace c = true := by
    rintro rfl
    decide
  simp only [cityChar, CityCharSpec, Bool.or_eq_true, Bool.and_eq_true, decide_eq_true_eq,
    beq_iff_eq]
  tauto

/-- What `validateCity` accepts: a trimmed length between 2 and 50 and only
characters of the class `[a-zA-Z\s\-']`. -/
theorem validateCity_isValid_iff (c : JsString) :
    (validateCity (some c)).isValid = true ↔
      2 ≤ (trim c).length ∧ (trim c).length ≤ 50 ∧
      ∀ x ∈ trim c, CityCharSpec x ∨ isWhiteSpace x = true := by
  have hre : cityRegex.test (trim c) = true ↔
      trim c ≠ [] ∧ ∀ x ∈ trim c, cityChar x = true := by
    rw [Regex.test_iff]
    exact Regex.mem_lang_plus_cls cityChar (trim c)
  by_cases hc : c = []
  · subst hc
    simp [validateCity, trim_nil]
  · have he : c.isEmpty = false := by
      rw [← Bool.not_eq_true, List.isEmpty_iff]
      exact hc
    simp only [validateCity, he, Bool.false_eq_true, if_false]
    split_ifs with h1 h2 h3
    · simp only [Bool.false_eq_true, false_iff]
      omega
    · simp only [Bool.false_eq_true, false_iff]
      omega
    · simp only [Bool.false_eq_true, false_iff]
      rintro ⟨_, _, hall⟩
      have hne : trim c ≠ [] := by
        intro hnil
        rw [hnil] at h1
        simp at h1
      have : cityRegex.test (trim c) = true :=
        hre.mpr ⟨hne, fun x hx => (cityChar_iff x).mpr (hall x hx)⟩
      simp [this] at h3
    · simp only [Bool.not_eq_true', Bool.not_eq_false] at h3
      simp only [true_iff]
      refine ⟨by omega, by omega, ?_⟩
      intro x hx
      exact (cityChar_iff x).mp ((hre.mp h3).2 x hx)

/-- C17: the class of `cityRegex` contains every whitespace code unit, not
only the space. The name `New<TAB>York` has trimmed length 8 and a tab, which
is no letter, space, hyphen or apostrophe, yet `validateCity` accepts it. -/
theorem validateCity_accepts_tab :
    (validateCity (some (js "New\tYork"))).isValid = true ∧
    2 ≤ (trim (js "New\tYork")).length ∧ (trim (js "New\tYork")).length ≤ 50 ∧
    ¬ (∀ x ∈ trim (js "New\tYork"), CityCharSpec x) := by
  decide

/-! ## Auth error messages -/

theorem errorMessages_truthy : ∀ p ∈ errorMessages, (p.2 != "") = true := by
  decide

theorem getProperty_errorMessages_mem (key v : String)
    (h : errorMessages.lookup key = some v) : (key, v) ∈ errorMessages := by
  obtain ⟨l₁, l₂, hl, _⟩ := List.lookup_eq_some_iff.mp h
  rw [hl]
  simp

/-- For a code that is absent or does not name an inherited property, the
message is one of the eleven. -/
theorem getAuthErrorMessage_mem (errorCode : Option String)
    (hcode : ∀ c, errorCode = some c → c ∉ objectPrototypeKeys) :
    ∃ m ∈ authMessages, getAuthErrorMessage errorCode = .string m := by
  have hkey : errorCode.getD "undefined" ∉ objectPrototypeKeys := by
    cases errorCode with
    | none => decide
    | some c => exact hcode c rfl
  cases hl : errorMessages.lookup (errorCode.getD "undefined") with
  | none =>
    refine ⟨"An error occurred. Please try again", by simp [authMessages], ?_⟩
    simp [getAuthErrorMessage, getProperty, hl, hkey, PropertyValue.truthy]
  | some v =>
    have hmem := getProperty_errorMessages_mem _ v hl
    have htruthy := errorMessages_truthy _ hmem
    refine ⟨v, ?_, ?_⟩
    · simp only [authMessages, List.mem_append, List.mem_map]
      exact Or.inl ⟨_, hmem, rfl⟩
    · simp only at htruthy
      simp only [getAuthErrorMessage, getProperty, hl, PropertyValue.truthy, htruthy, if_true]

/-- C20: `constructor` is none of the ten listed codes, so the claim and the
`|| fallback` call for the generic message; but the read
`errorMessages['constructor']` finds the function inherited from
`Object.prototype`, which is truthy. `getAuthErrorMessage` returns that
function, not a string, and the error raised by `signIn` for this code carries
none of the eleven messages. -/
theorem getAuthErrorMessage_inherited_key :
    "constructor" ∉ errorMessages.map Prod.fst ∧
    getAuthErrorMessage (some "constructor") = .inherited "constructor" ∧
    getAuthErrorMessage (some "constructor") ≠
      .string "An error occurred. Please try again" ∧
    (∀ m : String, getAuthErrorMessage (some "constructor") ≠ .string m) ∧
    authService.signIn (.rejected (some "constructor")) =
      .error (.inherited "constructor") ∧
    (∀ m ∈ authMessages,
      authService.signIn (.rejected (some "constructor")) ≠ .error (.string m)) := by
  have hval : getAuthErrorMessage (some "constructor") = .inherited "constructor" := by
    decide
  have hsign : authService.signIn (.rejected (some "constructor")) =
      .error (.inherited "constructor") := by
    simp only [authService.signIn, Except.error.injEq]
    exact hval
  refine ⟨by decide, hval, by decide, ?_, hsign, ?_⟩
  · intro m hm
    rw [hval] at hm
    exact PropertyValue.noConfusion hm
  · intro m _ hm
    rw [hsign] at hm
    simp only [Except.error.injEq] at hm
    exact PropertyValue.noConfusion hm

/-- The own properties of `errorMessages`: each of the ten listed codes gives
its message; a code that is neither listed nor found on the prototype, and a
missing code, give the fallback; an error raised by `signIn` or `signUp` for
such a code carries one of the eleven messages. -/
theorem getAuthErrorMessage_table :
    (∀ p ∈ errorMessages, getAuthErrorMessage (some p.1) = .string p.2) ∧
    getAuthErrorMessage (some "auth/email-already-in-use") =
      .string "This email is already registered" ∧
    getAuthErrorMessage (some "auth/wrong-password") = .string "Incorrect password" ∧
    (∀ code : String, code ∉ errorMessages.map Prod.fst → code ∉ objectPrototypeKeys →
      getAuthErrorMessage (some code) = .string "An error occurred. Please try again") ∧
    getAuthErrorMessage none = .string "An error occurred. Please try again" ∧
    (∀ (code : Option String) (e : PropertyValue),
      (∀ c, code = some c → c ∉ objectPrototypeKeys) →
      authService.signIn (.rejected code) = .error e → ∃ m ∈ authMessages, e = .string m) ∧
    (∀ (create : Remote App.User) (addDoc : Remote Unit) (e : PropertyValue),
      (∀ c, create = .rejected (some c) → c ∉ objectPrototypeKeys) →
      (∀ c, addDoc = .rejected (some c) → c ∉ objectPrototypeKeys) →
      authService.signUp create addDoc = .error e → ∃ m ∈ authMessages, e = .string m) ∧
    authMessages.length = 11 := by
  refine ⟨by decide, by decide, by decide, ?_, by decide, ?_, ?_, by decide⟩
  · intro code hcode hproto
    have hl : errorMessages.lookup code = none := by
      rw [List.lookup_eq_none_iff]
      intro p hp
      simp only [bne_iff_ne, ne_eq]
      intro hcp
      exact hcode (List.mem_map.mpr ⟨p, hp, hcp.symm⟩)
    simp [getAuthErrorMessage, getProperty, hl, hproto, PropertyValue.truthy]
  · intro code e hcode he
    simp only [authService.signIn, Except.error.injEq] at he
    subst he
    exact getAuthErrorMessage_mem code hcode
  · intro create addDoc e hc ha he
    cases create with
    | rejected code =>
      simp only [authService.signUp, Except.error.injEq] at he
      subst he
      exact getAuthErrorMessage_mem code (fun c hcc => hc c (by rw [hcc]))
    | resolved user =>
      cases addDoc with
      | rejected code =>
        simp only [authService.signUp, Except.error.injEq] at he
        subst he
        exact getAuthErrorMessage_mem code (fun c hcc => ha c (by rw [hcc]))
      | resolved u => simp [authService.signUp] at he

/-! ## Image upload checks -/

theorem uploadImage_ok_iff (timestamp randomString : JsString) (file : Option ImageFile)
    (folder : JsString) :
    (∃ req, storageService.uploadImage timestamp randomString file folder = .ok req) ↔
      ∃ f, file = some f ∧ f.type ∈ storageService.validTypes ∧ f.size ≤ 5 * 1024 * 1024 := by
  cases file with
  | none => simp [storageService.uploadImage]
  | some f =>
    by_cases ht : f.type ∈ storageService.validTypes
    · by_cases hs : f.size ≤ 5 * 1024 * 1024
      · have hs' : ¬ (f.size > 5 * 1024 * 1024) := by omega
        simp [storageService.uploadImage, List.elem_iff.mpr ht, ht, hs, hs']
      · have hs' : f.size > 5 * 1024 * 1024 := by omega
        simp [storageService.uploadImage, ht, hs, hs']
    · have hc : storageService.validTypes.contains f.type = false := by
        rw [← Bool.not_eq_true]
        exact fun h => ht (List.elem_iff.mp h)
      simp [storageService.uploadImage, hc, ht]

theorem uploadImage_error_or_ok (timestamp randomString : JsString) (file : Option ImageFile)
    (folder : JsString) :
    (∃ req, storageService.uploadImage timestamp randomString file folder = .ok req) ∨
    (∃ message, storageService.uploadImage timestamp randomString file folder =
      .error message) := by
  cases h : storageService.uploadImage timestamp randomString file folder with
  | ok req => exact Or.inl ⟨req, rfl⟩
  | error message => exact Or.inr ⟨message, rfl⟩

/-- C21: `uploadImage` requests the remote upload exactly when a file is
given, its type is one of the five image types and its size is at most
`5 * 1024 * 1024` bytes; the upload requested is of that file; for every other
file it throws an error and requests no upload; a file of exactly 5 MB is
accepted. -/
theorem uploadImage_checks (timestamp randomString : JsString) (file : Option ImageFile)
    (folder : JsString) :
    ((∃ req, storageService.uploadImage timestamp randomString file folder = .ok req) ↔
      ∃ f, file = some f ∧
        f.type ∈ [js "image/jpeg", js "image/jpg", js "image/png", js "image/webp",
          js "image/gif"] ∧
        f.size ≤ 5 * 1024 * 1024) ∧
    (∀ req, storageService.uploadImage timestamp randomString file folder = .ok req →
      file = some req.file) ∧
    ((¬ ∃ f, file = some f ∧
        f.type ∈ [js "image/jpeg", js "image/jpg", js "image/png", js "image/webp",
          js "image/gif"] ∧
        f.size ≤ 5 * 1024 * 1024) →
      ∃ message, storageService.uploadImage timestamp randomString file folder =
        .error message) ∧
    (∃ req, storageService.uploadImage timestamp randomString
      (some { name := js "photo.png", type := js "image/png", size := 5 * 1024 * 1024 })
      folder = .ok req) := by
  have hiff := uploadImage_ok_iff timestamp randomString file folder
  refine ⟨hiff, ?_, ?_, ?_⟩
  · intro req hreq
    cases file with
    | none => simp [storageService.uploadImage] at hreq
    | some f =>
      unfold storageService.uploadImage at hreq
      simp only at hreq
      split_ifs at hreq
      simp only [Except.ok.injEq] at hreq
      rw [← hreq]
  · intro hnot
    rcases uploadImage_error_or_ok timestamp randomString file folder with hok | herr
    · exact absurd (hiff.mp hok) hnot
    · exact herr
  · rw [uploadImage_ok_iff]
    exact ⟨_, rfl, by decide, by decide⟩

/-- C30: `validateImageFile(file).isValid` is true exactly when `uploadImage`
passes its checks and requests the upload of that file. -/
theorem validateImageFile_iff_uploadImage (timestamp randomString : JsString)
    (file : Option ImageFile) (folder : JsString) :
    (validateImageFile file).isValid = true ↔
      ∃ req, storageService.uploadImage timestamp randomString file folder = .ok req := by
  rw [uploadImage_ok_iff]
  cases file with
  | none => simp [validateImageFile]
  | some f =>
    have hsame : validateImageFile.validTypes = storageService.validTypes := rfl
    by_cases ht : f.type ∈ storageService.validTypes
    · have ht' : f.type ∈ validateImageFile.validTypes := hsame ▸ ht
      by_cases hs : f.size > 5 * 1024 * 1024
      · have hs' : ¬ f.size ≤ 5 * 1024 * 1024 := by omega
        simp [validateImageFile, hs, hs']
      · have hs' : f.size ≤ 5 * 1024 * 1024 := by omega
        simp [validateImageFile, hs, hs', ht, ht']
    · have ht' : f.type ∉ validateImageFile.validTypes := hsame ▸ ht
      by_cases hs : f.size > 5 * 1024 * 1024
      · simp [validateImageFile, hs, ht]
      · simp [validateImageFile, hs, ht, ht']

/-! ## Rejected submit -/

/-- C22: when `validateServiceForm` rejects the form, `handleSubmit` performs
no operation (no upload, no `addService`, no alert), leaves the form fields
and every other state variable as they were, and sets the error state to the
error map that `validateServiceForm` returned. -/
theorem handleSubmit_rejected (toLowerCase : JsString → JsString)
    (currentUser : Option App.User) (currentUserEmail : Option JsString)
    (nullUserMessage : String) (uploadImage : ImageFile → Except String JsString)
    (addService : ServiceData → JsString → Except String Unit) (hasOnServiceAdded : Bool)
    (st : AddServiceModal.State)
    (hrej : (validateServiceForm toLowerCase st.formData).isValid = false) :
    (AddServiceModal.handleSubmit toLowerCase currentUser currentUserEmail nullUserMessage
      uploadImage addService hasOnServiceAdded st).2 = [] ∧
    (AddServiceModal.handleSubmit toLowerCase currentUser currentUserEmail nullUserMessage
      uploadImage addService hasOnServiceAdded st).1.formData = st.formData ∧
    (AddServiceModal.handleSubmit toLowerCase currentUser currentUserEmail nullUserMessage
      uploadImage addService hasOnServiceAdded st).1.errors =
      (validateServiceForm toLowerCase st.formData).errors ∧
    (AddServiceModal.handleSubmit toLowerCase currentUser currentUserEmail nullUserMessage
      uploadImage addService hasOnServiceAdded st).1 =
      { st with errors := (validateServiceForm toLowerCase st.formData).errors } := by
  simp [AddServiceModal.handleSubmit, hrej]

/-- C22 at a form whose name is empty, with backends that would succeed. -/
theorem handleSubmit_rejected_witness :
    (AddServiceModal.handleSubmit toLowerCaseAscii (some { uid := js "u1" }) none ""
      (fun _ => .ok (js "url")) (fun _ _ => .ok ()) true sampleModalState).2 = [] ∧
    (AddServiceModal.handleSubmit toLowerCaseAscii (some { uid := js "u1" }) none ""
      (fun _ => .ok (js "url")) (fun _ _ => .ok ()) true sampleModalState).1.formData =
      sampleModalState.formData ∧
    (AddServiceModal.handleSubmit toLowerCaseAscii (some { uid := js "u1" }) none ""
      (fun _ => .ok (js "url")) (fun _ _ => .ok ()) true sampleModalState).1.errors =
      (validateServiceForm toLowerCaseAscii sampleModalState.formData).errors ∧
    (AddServiceModal.handleSubmit toLowerCaseAscii (some { uid := js "u1" }) none ""
      (fun _ => .ok (js "url")) (fun _ _ => .ok ()) true sampleModalState).1 =
      { sampleModalState with
        errors := (validateServiceForm toLowerCaseAscii sampleModalState.formData).errors } :=
  handleSubmit_rejected toLowerCaseAscii (some { uid := js "u1" }) none ""
    (fun _ => .ok (js "url")) (fun _ _ => .ok ()) true sampleModalState (by decide)

/-! ## Sanitising -/

theorem sanitizeInput_string (s : JsString) (hs : s ≠ []) :
    sanitizeInput (.string s) = (removeAll ltOrGt (trim s)).take 1000 := by
  have he : s.isEmpty = false := by
    rw [← Bool.not_eq_true, List.isEmpty_iff]
    exact hs
  simp [sanitizeInput, he, substring]

theorem sanitizeInput_no_angle (input : JsValue) :
    ∀ c ∈ sanitizeInput input, ltOrGt c = false := by
  intro c hc
  cases input with
  | string s =>
    by_cases hs : s = []
    · subst hs
      simp [sanitizeInput] at hc
    · rw [sanitizeInput_string s hs] at hc
      have hmem := List.mem_of_mem_take hc
      simp only [removeAll, List.mem_filter, Bool.not_eq_true'] at hmem
      exact hmem.2
  | _ => simp [sanitizeInput] at hc

theorem sanitizeInput_length (input : JsValue) : (sanitizeInput input).length ≤ 1000 := by
  cases input with
  | string s =>
    by_cases hs : s = []
    · subst hs
      simp [sanitizeInput]
    · rw [sanitizeInput_string s hs, List.length_take]
      exact Nat.min_le_left _ _
  | _ => simp [sanitizeInput]

/-- C24: `sanitizeInput` returns a string with neither `<` nor `>` and of
length at most 1000; for a missing input or one that is not a string it
returns the empty string. -/
theorem sanitizeInput_bounds :
    (∀ input : JsValue,
      (∀ c ∈ sanitizeInput input, c ≠ 60 ∧ c ≠ 62) ∧ (sanitizeInput input).length ≤ 1000) ∧
    (∀ input : JsValue, (∀ s, input ≠ .string s) → sanitizeInput input = []) ∧
    sanitizeInput .undefined = [] ∧
    sanitizeInput (.string []) = [] := by
  refine ⟨?_, ?_, rfl, rfl⟩
  · intro input
    refine ⟨?_, sanitizeInput_length input⟩
    intro c hc
    have h := sanitizeInput_no_angle input c hc
    simp only [ltOrGt, Bool.or_eq_false_iff, beq_eq_false_iff_ne, ne_eq] at h
    exact h
  · intro input hns
    cases input with
    | string s => exact absurd rfl (hns s)
    | _ => rfl

theorem dropWhile_head_not (p : Nat → Bool) (t : List Nat) :
    t.dropWhile p = [] ∨ ∃ a u, t.dropWhile p = a :: u ∧ p a = false := by
  induction t with
  | nil => exact Or.inl rfl
  | cons a t ih =>
    by_cases ha : p a = true
    · simpa [List.dropWhile_cons, ha] using ih
    · refine Or.inr ⟨a, t, ?_, by simpa using ha⟩
      simp [List.dropWhile_cons, ha]

theorem trim_trim (t : JsString) : trim (trim t) = trim t := by
  unfold trim
  have hpre : (t.dropWhile isWhiteSpace).rdropWhile isWhiteSpace <+: t.dropWhile isWhiteSpace :=
    List.rdropWhile_prefix isWhiteSpace _
  have hdrop : ((t.dropWhile isWhiteSpace).rdropWhile isWhiteSpace).dropWhile isWhiteSpace =
      (t.dropWhile isWhiteSpace).rdropWhile isWhiteSpace := by
    rcases dropWhile_head_not isWhiteSpace t with hnil | ⟨a, u, hu, ha⟩
    · rw [hnil]
      simp [List.rdropWhile_nil]
    · rw [hu] at hpre ⊢
      generalize (a :: u).rdropWhile isWhiteSpace = v at hpre
      cases v with
      | nil => rfl
      | cons b v =>
        obtain ⟨w, hw⟩ := hpre
        simp only [List.cons_append, List.cons.injEq] at hw
        rw [hw.1]
        simp [List.dropWhile_cons, ha]
  rw [hdrop, List.rdropWhile_idempotent]

/-- A second pass of `sanitizeInput` only trims the result of the first. -/
theorem sanitizeInput_twice (input : JsValue) :
    sanitizeInput (.string (sanitizeInput input)) = trim (sanitizeInput input) := by
  generalize ht : sanitizeInput input = t
  have hangle : ∀ c ∈ t, ltOrGt c = false := ht ▸ sanitizeInput_no_angle input
  have hlen : t.length ≤ 1000 := ht ▸ sanitizeInput_length input
  have hinf : trim t <:+: t := trim_infix t
  by_cases hnil : t = []
  · subst hnil
    simp [sanitizeInput, trim_nil]
  · rw [sanitizeInput_string t hnil]
    have hfilter : removeAll ltOrGt (trim t) = trim t := by
      unfold removeAll
      rw [List.filter_eq_self]
      intro c hc
      rw [hangle c (hinf.subset hc)]
      rfl
    rw [hfilter]
    apply List.take_of_length_le
    exact le_trans hinf.length_le hlen

/-- C28 as stated fails: for `< a` the first pass removes `<` after trimming
and leaves ` a` with a leading space, which the second pass trims to `a`. -/
theorem sanitizeInput_not_idempotent :
    sanitizeInput (.string (js "< a")) = js " a" ∧
    sanitizeInput (.string (sanitizeInput (.string (js "< a")))) = js "a" ∧
    sanitizeInput (.string (sanitizeInput (.string (js "< a")))) ≠
      sanitizeInput (.string (js "< a")) := by
  decide

/-- C28, as amended: a second application of `sanitizeInput` returns the
result of the first with surrounding whitespace trimmed; so the two are equal
exactly when the first result has no surrounding whitespace, and a third
application changes nothing. -/
theorem sanitizeInput_twice_trims (s : JsString) :
    sanitizeInput (.string (sanitizeInput (.string s))) = trim (sanitizeInput (.string s)) ∧
    (sanitizeInput (.string (sanitizeInput (.string s))) = sanitizeInput (.string s) ↔
      trim (sanitizeInput (.string s)) = sanitizeInput (.string s)) ∧
    sanitizeInput (.string (sanitizeInput (.string (sanitizeInput (.string s))))) =
      sanitizeInput (.string (sanitizeInput (.string s))) := by
  have h2 := sanitizeInput_twice (.string s)
  refine ⟨h2, by rw [h2], ?_⟩
  have h3 := sanitizeInput_twice (.string (sanitizeInput (.string s)))
  rw [h3, h2, trim_trim]

/-! ## Updating a listing -/

/-- C23 as stated fails: a payload that carries `updatedAt: 5` is written with
`updatedAt` replaced by the server timestamp, so not every other field keeps
its value. -/
theorem updateService_replaces_updatedAt :
    samplePayload "updatedAt" = some (.number 5) ∧
    ∃ w, serviceService.updateService (some (js "s1")) (some samplePayload) = .ok w ∧
      w "updatedAt" = some .serverTimestamp ∧ w "updatedAt" ≠ samplePayload "updatedAt" := by
  refine ⟨by simp [samplePayload], _, rfl, by simp, ?_⟩
  simp [samplePayload]

/-- C23, as amended: for a non-empty service id and every payload, the data
handed to `updateDoc` has no field `id`, `userId` or `createdAt`, has every
field of the payload other than these and `updatedAt` with its value
unchanged, and has `updatedAt` set to the server timestamp. -/
theorem updateService_written_fields (serviceId : JsString) (data : JsObject)
    (hid : serviceId ≠ []) :
    ∃ w, serviceService.updateService (some serviceId) (some data) = .ok w ∧
      w "id" = none ∧ w "userId" = none ∧ w "createdAt" = none ∧
      (∀ k, k ≠ "id" → k ≠ "userId" → k ≠ "createdAt" → k ≠ "updatedAt" → w k = data k) ∧
      w "updatedAt" = some .serverTimestamp := by
  have he : serviceId.isEmpty = false := by
    rw [← Bool.not_eq_true, List.isEmpty_iff]
    exact hid
  refine ⟨_, by simp [serviceService.updateService, truthy, he]; rfl, ?_, ?_, ?_, ?_, ?_⟩
  · simp
  · simp
  · simp
  · intro k h1 h2 h3 h4
    simp [h1, h2, h3, h4]
  · simp

/-- C23 amended, at a payload that tries to change the owner. -/
theorem updateService_written_fields_witness :
    ∃ w, serviceService.updateService (some (js "s1")) (some samplePayload) = .ok w ∧
      w "id" = none ∧ w "userId" = none ∧ w "createdAt" = none ∧
      (∀ k, k ≠ "id" → k ≠ "userId" → k ≠ "createdAt" → k ≠ "updatedAt" →
        w k = samplePayload k) ∧
      w "updatedAt" = some .serverTimestamp :=
  updateService_written_fields (js "s1") samplePayload (by decide)

/-! ## Sorting: in place, and a permutation -/

theorem filterStage_snd (toLowerCase : JsString → JsString) (st : FilterState) :
    (useServicesWithFilters.filterStage toLowerCase st).2 =
      decide (st.searchTerm = [] ∧ st.selectedCategory = js "All" ∧
        st.selectedCity = js "All" ∧ ¬ st.minRating > 0) := by
  cases c1 : st.searchTerm.isEmpty <;>
  by_cases c2 : st.selectedCategory = js "All" <;>
  by_cases c3 : st.selectedCity = js "All" <;>
  by_cases c4 : st.minRating > 0 <;>
  simp only [useServicesWithFilters.filterStage, c1, c2, c3, c4, Bool.not_true, Bool.not_false,
    Bool.false_eq_true, if_true, if_false, ne_eq, not_true_eq_false, not_false_eq_true] <;>
  simp [List.isEmpty_iff.mp, c1, c2, c3, c4]
  all_goals first
    | exact List.isEmpty_iff.mp c1
    | (intro h
       rw [h] at c1
       simp at c1)

/-- With some filter active, `applyFilters` leaves `services` as it was. -/
theorem applyFilters_services_of_active (toLowerCase : JsString → JsString)
    (localeCompare : JsString → JsString → ℚ) (st : FilterState)
    (h : st.searchTerm ≠ [] ∨ st.selectedCategory ≠ js "All" ∨ st.selectedCity ≠ js "All" ∨
      st.minRating > 0) :
    (useServicesWithFilters.applyFilters toLowerCase localeCompare st).services =
      st.services := by
  have h2 : (useServicesWithFilters.filterStage toLowerCase st).2 = false := by
    rw [filterStage_snd, decide_eq_false_iff_not]
    tauto
  show (if (useServicesWithFilters.filterStage toLowerCase st).2 = true then _ else _) = _
  rw [h2]
  rfl

/-- C25: with no filter active `filtered` is the very array `services`, and
`sort` orders it in place. On listings rated 5, 3, 4 with sort key
`rating-high`, `services` holds them in the order 5, 4, 3 afterwards, whereas
the sorted copy of `ServiceList` leaves its argument alone. -/
theorem applyFilters_sorts_services_in_place (toLowerCase : JsString → JsString)
    (localeCompare : JsString → JsString → ℚ) :
    (sampleState "rating-high").services.map (fun s => s.rating) = [5, 3, 4] ∧
    (useServicesWithFilters.applyFilters toLowerCase localeCompare
      (sampleState "rating-high")).services.map (fun s => s.rating) = [5, 4, 3] ∧
    (useServicesWithFilters.applyFilters toLowerCase localeCompare
      (sampleState "rating-high")).services ≠ (sampleState "rating-high").services := by
  have hstage : useServicesWithFilters.filterStage toLowerCase (sampleState "rating-high") =
      (sampleServices, true) := by
    simp [useServicesWithFilters.filterStage, sampleState]
  have hserv : (useServicesWithFilters.applyFilters toLowerCase localeCompare
      (sampleState "rating-high")).services =
      jsSort (compareBy localeCompare "rating-high") sampleServices := by
    simp only [useServicesWithFilters.applyFilters, hstage]
    rfl
  rw [hserv, sampleServices_rating_high]
  refine ⟨by simp [sampleState, sampleServices], by simp [sampleServices], ?_⟩
  simp [sampleState, sampleServices]

theorem jsSort_of_zero {α : Type} (comparefn : α → α → ℚ) (hzero : ∀ a b, comparefn a b = 0)
    (xs : List α) : jsSort comparefn xs = xs := by
  unfold jsSort
  induction xs with
  | nil => rfl
  | cons a xs ih =>
    rw [List.insertionSort, ih]
    cases xs with
    | nil => rfl
    | cons b xs => simp [List.orderedInsert, hzero]

/-- C26: the sorted output of `applyFilters` and of `ServiceList` is a
permutation of the list that is sorted, for every sort key; for a key other
than the five supported ones it is that list in its original order. -/
theorem sort_is_permutation (toLowerCase : JsString → JsString)
    (localeCompare : JsString → JsString → ℚ) (st : FilterState) (services : List Listing)
    (sortBy : String) :
    ((useServicesWithFilters.applyFilters toLowerCase localeCompare st).filteredServices).Perm
      (useServicesWithFilters.filterStage toLowerCase st).1 ∧
    (ServiceList.sortedServices localeCompare services sortBy).Perm services ∧
    (sortBy ∉ ["newest", "oldest", "rating-high", "rating-low", "name"] →
      ServiceList.sortedServices localeCompare services sortBy = services ∧
      (useServicesWithFilters.applyFilters toLowerCase localeCompare
        { st with sortBy := sortBy }).filteredServices =
        (useServicesWithFilters.filterStage toLowerCase st).1) := by
  refine ⟨jsSort_perm _ _, jsSort_perm _ _, ?_⟩
  intro hkey
  simp only [List.mem_cons, List.mem_singleton, List.not_mem_nil, or_false, not_or] at hkey
  obtain ⟨h1, h2, h3, h4, h5⟩ := hkey
  have hzero : ∀ a b : Listing, compareBy localeCompare sortBy a b = 0 := by
    intro a b
    simp [compareBy, h1, h2, h3, h4, h5]
  exact ⟨jsSort_of_zero _ hzero services, jsSort_of_zero _ hzero _⟩

/-! ## Pages partition the list -/

theorem slice_window {α : Type} (xs : List α) (m p : Nat) :
    slice xs (m : Int) ((m : Int) + (p : Int)) = (xs.drop m).take p := by
  have h1 : ¬ ((m : Int) < 0) := by omega
  have h2 : ¬ ((m : Int) + (p : Int) < 0) := by omega
  simp only [slice, h1, h2, if_false]
  by_cases hm : m ≤ xs.length
  · have e1 : (min (m : Int) (xs.length : Int)).toNat = m := by omega
    rw [e1]
    by_cases hp : m + p ≤ xs.length
    · have e2 : (min ((m : Int) + (p : Int)) (xs.length : Int) -
          min (m : Int) (xs.length : Int)).toNat = p := by omega
      rw [e2]
    · have e2 : (min ((m : Int) + (p : Int)) (xs.length : Int) -
          min (m : Int) (xs.length : Int)).toNat = xs.length - m := by omega
      rw [e2]
      have hlen : (xs.drop m).length = xs.length - m := List.length_drop m xs
      rw [List.take_of_length_le (by omega), List.take_of_length_le (by omega)]
  · have e1 : (min (m : Int) (xs.length : Int)).toNat = xs.length := by omega
    rw [e1, List.drop_of_length_le (le_refl _), List.drop_of_length_le (by omega)]
    simp

theorem currentServices_eq {α : Type} (services : List α) (p i : Nat) :
    useServicePagination.currentServices services p ((i : Int) + 1) =
      (services.drop (i * p)).take p := by
  have hstart : useServicePagination.startIndex ((i : Int) + 1) p = ((i * p : Nat) : Int) := by
    unfold useServicePagination.startIndex
    rw [add_sub_cancel_right, Nat.cast_mul]
  unfold useServicePagination.currentServices useServicePagination.endIndex
  rw [hstart]
  exact slice_window services (i * p) p

theorem chunks_flatten {α : Type} (xs : List α) (p : Nat) (n : Nat) :
    (List.range n).flatMap (fun i => (xs.drop (i * p)).take p) = xs.take (n * p) := by
  induction n with
  | zero => simp
  | succ n ih =>
    rw [List.range_succ, List.flatMap_append, ih]
    simp only [List.flatMap_cons, List.flatMap_nil, List.append_nil]
    rw [Nat.succ_mul, List.take_add]

/-- C27: for a page size `p ≥ 1`, the pages `1, 2, ..., totalPages` in order
concatenate to the original list, every page holds at most `p` listings, and
every page before the last holds exactly `p`. -/
theorem pages_partition {α : Type} (services : List α) (p : Nat) (hp : 1 ≤ p) :
    (List.range (useServicePagination.totalPages services p).toNat).flatMap
      (fun i => useServicePagination.currentServices services p ((i : Int) + 1)) = services ∧
    (∀ i : Nat,
      (useServicePagination.currentServices services p ((i : Int) + 1)).length ≤ p) ∧
    (∀ i : Nat, ((i : Int) + 1) < useServicePagination.totalPages services p →
      (useServicePagination.currentServices services p ((i : Int) + 1)).length = p) := by
  obtain ⟨hlow, hupp⟩ := (useServicePagination.totalPages_eq_iff services p hp
    (useServicePagination.totalPages services p)).mp rfl
  generalize useServicePagination.totalPages services p = T at hlow hupp ⊢
  have hpos : (0 : Int) < (p : Int) := by exact_mod_cast hp
  refine ⟨?_, ?_, ?_⟩
  · simp only [currentServices_eq]
    rw [chunks_flatten]
    apply List.take_of_length_le
    have hT : 0 ≤ T := by
      by_contra hneg
      have : T * (p : Int) < 0 := mul_neg_of_neg_of_pos (by omega) hpos
      omega
    have hcast : ((T.toNat * p : Nat) : Int) = T * (p : Int) := by
      rw [Nat.cast_mul, Int.toNat_of_nonneg hT]
    omega
  · intro i
    rw [currentServices_eq, List.length_take]
    exact Nat.min_le_left _ _
  · intro i hi
    rw [currentServices_eq, List.length_take, List.length_drop]
    have hle : ((i : Int) + 1) * (p : Int) ≤ (T - 1) * (p : Int) :=
      mul_le_mul_of_nonneg_right (by omega) hpos.le
    have hcast : (((i + 1) * p : Nat) : Int) = ((i : Int) + 1) * (p : Int) := by
      push_cast
      ring
    have hfit : (i + 1) * p < services.length := by
      have : (((i + 1) * p : Nat) : Int) < (services.length : Int) := by
        rw [hcast]
        exact lt_of_le_of_lt hle hlow
      exact_mod_cast this
    have hexp : (i + 1) * p = i * p + p := by ring
    omega

/-- C27 at 20 listings with page size 9: pages of 9, 9 and 2. -/
theorem pages_partition_witness :
    (List.range (useServicePagination.totalPages (List.range 20) 9).toNat).flatMap
      (fun i => useServicePagination.currentServices (List.range 20) 9 ((i : Int) + 1)) =
      List.range 20 ∧
    (∀ i : Nat,
      (useServicePagination.currentServices (List.range 20) 9 ((i : Int) + 1)).length ≤ 9) ∧
    (∀ i : Nat, ((i : Int) + 1) < useServicePagination.totalPages (List.range 20) 9 →
      (useServicePagination.currentServices (List.range 20) 9 ((i : Int) + 1)).length = 9) :=
  pages_partition (List.range 20) 9 (by decide)

/-! ## Password strength -/

theorem calculatePasswordStrength_le_five (password : JsString) :
    SignUpForm.calculatePasswordStrength password ≤ 5 := by
  unfold SignUpForm.calculatePasswordStrength
  simp only
  split_ifs <;> omega

/-- C29: `calculatePasswordStrength` can return 5, and `labels` has entries
for 0 to 4 only. For the password `Abcdefgh1!` every one of the five tests
adds a point, the strength is 5, and the label shown is the empty string,
which is none of the five labels. -/
theorem strongest_password_has_empty_label :
    SignUpForm.calculatePasswordStrength (js "Abcdefgh1!") = 5 ∧
    SignUpForm.getPasswordStrengthLabel
      (SignUpForm.calculatePasswordStrength (js "Abcdefgh1!")) = "" ∧
    "" ∉ ["Very Weak", "Weak", "Fair", "Good", "Strong"] ∧
    (∀ n, n ≤ 4 → SignUpForm.getPasswordStrengthLabel n ∈
      ["Very Weak", "Weak", "Fair", "Good", "Strong"]) := by
  refine ⟨by decide, by decide, by decide, ?_⟩
  intro n hn
  interval_cases n <;> decide

end ServiceFinder
